import Mathlib

/-!
Verification development for the `naiveproxy` sources under review:
`net/http/http_stream_pool_job.h` (the per-destination connection
establishment Job of `HttpStreamPool`) and
`base/android/content_uri_utils.h` (open-flag translation helper).

Only the headers are present in the tree; the function bodies live in the
corresponding `.cc` files, which are not part of the source set.  Where a
definition's body is missing, it is modelled from the specification
(`spec.md`) and from the documentation comments in the headers; such
definitions carry a doc comment beginning `Modelled from the spec:`.
-/

namespace ContentUriUtils

/-- Flag `base::File::FLAG_OPEN` (1 << 0). Modelled from the spec: `base/files/file.h`
is not in the source set; flag values follow the `base::File::FLAG_*` bitset
referenced by the header comment of `TranslateOpenFlagsToJavaMode`. -/
def FLAG_OPEN : Nat := 1

/-- Flag `base::File::FLAG_CREATE` (1 << 1). -/
def FLAG_CREATE : Nat := 2

/-- Flag `base::File::FLAG_OPEN_ALWAYS` (1 << 2). -/
def FLAG_OPEN_ALWAYS : Nat := 4

/-- Flag `base::File::FLAG_CREATE_ALWAYS` (1 << 3). -/
def FLAG_CREATE_ALWAYS : Nat := 8

/-- Flag `base::File::FLAG_OPEN_TRUNCATED` (1 << 4). -/
def FLAG_OPEN_TRUNCATED : Nat := 16

/-- Flag `base::File::FLAG_READ` (1 << 5). -/
def FLAG_READ : Nat := 32

/-- Flag `base::File::FLAG_WRITE` (1 << 6). -/
def FLAG_WRITE : Nat := 64

/-- Flag `base::File::FLAG_APPEND` (1 << 7). -/
def FLAG_APPEND : Nat := 128

/-- Flag `base::File::FLAG_ASYNC` (1 << 10), ignored by the translation. -/
def FLAG_ASYNC : Nat := 1024

/-- Modelled from the spec: the body of `TranslateOpenFlagsToJavaMode`
(`content_uri_utils.cc`) is not in the source set.  Per the header comment
(`content_uri_utils.h:17-22`) it translates a `base::File::FLAG_*` bitset to a
Java mode accepted by `ParcelFileDescriptor#parseMode` — one of "r", "wt",
"wa", "rw", "rwt" — deliberately never producing "w", and returns `nullopt`
for every unsupported flag combination.  The async flag does not affect the
chosen mode. -/
def TranslateOpenFlagsToJavaMode (openFlags : Nat) : Option String :=
  let flags := openFlags - (openFlags &&& FLAG_ASYNC)
  if flags = FLAG_OPEN ||| FLAG_READ then some "r"
  else if flags = FLAG_OPEN_ALWAYS ||| FLAG_READ ||| FLAG_WRITE then some "rw"
  else if flags = FLAG_OPEN_ALWAYS ||| FLAG_APPEND then some "wa"
  else if flags = FLAG_CREATE_ALWAYS ||| FLAG_READ ||| FLAG_WRITE then some "rwt"
  else if flags = FLAG_CREATE_ALWAYS ||| FLAG_WRITE then some "wt"
  else none

end ContentUriUtils

namespace HttpStreamPool

/-- Type `base::TimeDelta`, stored as a count of microseconds (as in
`base/time/time.h`). -/
structure TimeDelta where
  microseconds : Int
deriving DecidableEq, Repr

/-- Constructor `base::Milliseconds(n)`: a `TimeDelta` of `n` milliseconds. -/
def Milliseconds (ms : Int) : TimeDelta := ⟨ms * 1000⟩

/-- Accessor `TimeDelta::InMilliseconds()`. -/
def TimeDelta.InMilliseconds (d : TimeDelta) : Int := d.microseconds / 1000

/-- Constant `HttpStreamPool::Job::kSpdyThrottleDelay`
(`http_stream_pool_job.h:52`): time to delay connection attempts beyond the
first when the destination is known to support HTTP/2. -/
def kSpdyThrottleDelay : TimeDelta := Milliseconds 300

end HttpStreamPool

namespace HttpStreamPool.Job

/-- Net error codes used by the model (`net/base/net_error_list.h` is not in
the source set; only the values used here are modelled). `OK = 0`. -/
def OK : Int := 0

/-- Code `net::ERR_FAILED` (-2), the initial value of `error_to_notify_`
(`http_stream_pool_job.h:384`). -/
def ERR_FAILED : Int := -2

/-- Enum `HttpStreamPool::Job::FailureKind` (`http_stream_pool_job.h:149-153`):
represents failure of connection attempts, used to pick which delegate method
to call.  The constructor spelling `kCertifcateError` follows the source. -/
inductive FailureKind where
  | kStreamFailed
  | kCertifcateError
  | kNeedsClientAuth
deriving DecidableEq, Repr

/-- Enum `HttpStreamPool::Job::CanAttemptResult` (`http_stream_pool_job.h:156-163`):
reasons why future connection attempts could be blocked or not. -/
inductive CanAttemptResult where
  | kAttempt
  | kNoPendingRequest
  | kBlockedStreamAttempt
  | kThrottledForSpdy
  | kReachedGroupLimit
  | kReachedPoolLimit
deriving DecidableEq, Repr

/-- Modelled from the spec: `HttpStreamPool::Job::RequestEntry`
(`http_stream_pool_job.h:167-194`) wraps one caller's stream request — a
priority, a delegate handle, and a back reference to the Job.  The model keeps
an identifier in place of the delegate pointer and an arrival stamp realising
the queue's FIFO tie-break. -/
structure RequestEntry where
  rid : Nat
  priority : Nat
  arrival : Nat
deriving DecidableEq, Repr

/-- Modelled from the spec: `HttpStreamPool::Job::PreconnectEntry`
(`http_stream_pool_job.h:199`) wraps a request for N streams with a completion
callback and a remaining-count counter. -/
structure PreconnectEntry where
  pid : Nat
  remaining : Nat
deriving DecidableEq, Repr

/-- Modelled from the spec: `HttpStreamPool::Job::InFlightAttempt`
(`http_stream_pool_job.h:198`): one concrete connection attempt bound to one
IP endpoint, tracking whether it has crossed the "slow" threshold. -/
structure InFlightAttempt where
  aid : Nat
  ipEndpoint : Nat
  isSlow : Bool
deriving DecidableEq, Repr

/-- The terminal outcome delivered to a request's delegate: exactly one of
stream-ready (with whether the stream came from the shared multiplexed
session) or a classified failure. -/
inductive RequestOutcome where
  | streamReady (viaSpdy : Bool)
  | failed (kind : FailureKind) (error : Int)
deriving DecidableEq, Repr

/-- Modelled from the spec: the state of one `HttpStreamPool::Job`
(`http_stream_pool_job.h:342-438`).  `requests` holds requests waiting for
notification; `notifiedRequests` holds requests already notified (kept to
avoid dangling pointers), here paired with the outcome that was delivered.
`attemptHistory` records the endpoint of every launched TCP/TLS attempt,
newest first (diagnostic ledger; the code's `connection_attempts_`). -/
structure JobState where
  requests : List RequestEntry := []
  notifiedRequests : List (Nat × RequestOutcome) := []
  preconnects : List PreconnectEntry := []
  notifiedPreconnects : List (Nat × Int) := []
  inFlightAttempts : List InFlightAttempt := []
  attemptHistory : List Nat := []
  isFailing : Bool := false
  isCancelingRequests : Bool := false
  errorToNotify : Int := ERR_FAILED
  certErrorSslInfo : Option Nat := none
  clientAuthCertInfo : Option Nat := none
  failedIpEndpoints : List Nat := []
  slowIpEndpoints : List Nat := []
  serviceEndpoints : List Nat := []
  supportsSpdy : Bool := false
  spdySession : Bool := false
  spdyThrottleDelayPassed : Bool := false
  quicTaskResult : Option Int := none
  groupLimit : Nat := 6
  poolLimit : Nat := 256
  nextRequestId : Nat := 0
  nextPreconnectId : Nat := 0
  nextAttemptId : Nat := 0
  nextArrival : Nat := 0
deriving DecidableEq, Repr

/-- The initial state of a Job for a destination whose resolved candidate
endpoints are `eps` and whose known HTTP/2 support is `spdy`. -/
def initState (eps : List Nat) (spdy : Bool) : JobState :=
  { serviceEndpoints := eps, supportsSpdy := spdy }

/-- The number of in-flight attempts that are treated as slow
(`slow_attempt_count_`, `http_stream_pool_job.h:406`). -/
def slowAttemptCount (s : JobState) : Nat :=
  (s.inFlightAttempts.filter (fun a => a.isSlow)).length

/-- The number of in-flight attempts not flagged slow. -/
def nonSlowAttemptCount (s : JobState) : Nat :=
  s.inFlightAttempts.length - slowAttemptCount s

/-- Sum of the remaining stream counts over preconnect entries. -/
def sumRemaining (l : List PreconnectEntry) : Nat :=
  (l.map (fun p => p.remaining)).sum

/-- Modelled from the spec: `PendingCountInternal`
(`http_stream_pool_job.h:267-268`) — "the number is calculated by subtracting
the number of in-flight attempts (excluding slow attempts) from the number of
total requests" (`http_stream_pool_job.h:125-128`).  Nat subtraction realises
the clamp at zero. -/
def PendingCountInternal (s : JobState) (count : Nat) : Nat :=
  count - nonSlowAttemptCount s

/-- Method `PendingRequestCount` (`http_stream_pool_job.h:128`). -/
def PendingRequestCount (s : JobState) : Nat :=
  PendingCountInternal s s.requests.length

/-- Method `PendingPreconnectCount` (`http_stream_pool_job.h:129`). -/
def PendingPreconnectCount (s : JobState) : Nat :=
  PendingCountInternal s (sumRemaining s.preconnects)

/-- Modelled from the spec: `DetermineFailureKind`
(`http_stream_pool_job.h:274-276`) — the most specific failure captured across
attempts wins: client-authentication-required and certificate errors take
precedence over a generic stream-attempt failure (§4.6). -/
def DetermineFailureKind (s : JobState) : FailureKind :=
  if s.clientAuthCertInfo.isSome then .kNeedsClientAuth
  else if s.certErrorSslInfo.isSome then .kCertifcateError
  else .kStreamFailed

/-- Whether a completed alternate-protocol task ended in failure
(`quic_task_result_`, `http_stream_pool_job.h:430`). -/
def isAltProtocolFailure : Option Int → Bool
  | none => false
  | some rv => rv ≠ OK

/-- Modelled from the spec: `ShouldThrottleAttemptForSpdy`
(`http_stream_pool_job.h:263-265`) — returns true when connection attempts
should be throttled because there is an in-flight attempt and the destination
is known to support HTTP/2, until the one-shot throttle timer has fired or an
earlier alternate-protocol failure has shown that no multiplexing-capable
connection is imminent (§4.3 rule 3, §8 throttle behavior). -/
def ShouldThrottleAttemptForSpdy (s : JobState) : Bool :=
  s.supportsSpdy && !s.spdyThrottleDelayPassed &&
    !s.inFlightAttempts.isEmpty && !s.spdySession &&
    !isAltProtocolFailure s.quicTaskResult

/-- Modelled from the spec: `CanAttemptConnection`
(`http_stream_pool_job.h:259-261`) evaluating the admission rules of §4.3 in
order: no pending demand; demand already covered by non-slow in-flight
attempts; SPDY throttling; destination-level limit; pool-wide limit;
otherwise attempt.  Per §4.1, the pending count is
`len(requests) + sum(preconnect.remaining)` and decisions subtract the
in-flight non-slow attempts from it. -/
def CanAttemptConnection (s : JobState) : CanAttemptResult :=
  let pending := s.requests.length + sumRemaining s.preconnects
  if pending = 0 then .kNoPendingRequest
  else if pending ≤ nonSlowAttemptCount s then .kBlockedStreamAttempt
  else if ShouldThrottleAttemptForSpdy s then .kThrottledForSpdy
  else if s.groupLimit ≤ s.inFlightAttempts.length then .kReachedGroupLimit
  else if s.poolLimit ≤ s.inFlightAttempts.length then .kReachedPoolLimit
  else .kAttempt

/-- Modelled from the spec: `GetIPEndPointToAttempt`
(`http_stream_pool_job.h:270`) — §4.3 endpoint selection: skip any endpoint
already in `failed_ip_endpoints`; an endpoint marked slow is deprioritised but
not excluded, retried only after all non-slow, non-failed candidates. -/
def GetIPEndPointToAttempt (s : JobState) : Option Nat :=
  match s.serviceEndpoints.find?
      (fun ep => !s.failedIpEndpoints.contains ep &&
                 !s.slowIpEndpoints.contains ep) with
  | some ep => some ep
  | none => s.serviceEndpoints.find? (fun ep => !s.failedIpEndpoints.contains ep)

/-- Strict preference between request entries: higher priority first, FIFO
(earlier arrival) among equal priorities. -/
def pref (a b : RequestEntry) : Bool :=
  b.priority < a.priority || (a.priority = b.priority && a.arrival < b.arrival)

/-- Modelled from the spec: the selection step of `ExtractFirstRequestToNotify`
(`http_stream_pool_job.h:305-307`): pick the entry of `requests_` whose
priority is highest (FIFO tie-break), returning it with the remaining
entries. -/
def selectBest : List RequestEntry → Option (RequestEntry × List RequestEntry)
  | [] => none
  | r :: rs =>
    match selectBest rs with
    | none => some (r, [])
    | some (b, rest) => if pref b r then some (b, r :: rest) else some (r, rs)

/-- Insertion in the style of `std::set` into a list acting as a set. -/
def insertIfAbsent (x : Nat) (l : List Nat) : List Nat :=
  if x ∈ l then l else l ++ [x]

/-- Modelled from the spec: notify every waiting request of `outcome`, moving
each entry from `requests_` to `notified_requests_`
(`http_stream_pool_job.h:352-358`). -/
def notifyAllRequests (s : JobState) (outcome : RequestOutcome) : JobState :=
  { s with requests := [],
           notifiedRequests :=
             s.requests.map (fun r => (r.rid, outcome)) ++ s.notifiedRequests }

/-- Modelled from the spec: `NotifyPreconnectsComplete`
(`http_stream_pool_job.h:285`) — invoke every preconnect's callback with
`rv`. -/
def NotifyPreconnectsComplete (s : JobState) (rv : Int) : JobState :=
  { s with preconnects := [],
           notifiedPreconnects :=
             s.preconnects.map (fun p => (p.pid, rv)) ++ s.notifiedPreconnects }

/-- Modelled from the spec: `NotifyFailure` (`http_stream_pool_job.h:279`) —
enter the failing state, compute the single Job-wide `FailureKind`, and
deliver the classified failure to every pending request and every preconnect
(§4.6). -/
def NotifyFailure (s : JobState) : JobState :=
  let s' : JobState := { s with isFailing := true }
  NotifyPreconnectsComplete
    (notifyAllRequests s' (.failed (DetermineFailureKind s') s'.errorToNotify))
    s'.errorToNotify

/-- Modelled from the spec: `ProcessPreconnectsAfterAttemptComplete`
(`http_stream_pool_job.h:284-290`) — decrement the stream count of every
preconnect entry; invoke the callback (with `rv`) of each entry whose count
becomes zero. -/
def ProcessPreconnectsAfterAttemptComplete (s : JobState) (rv : Int) : JobState :=
  let completed := s.preconnects.filter (fun p => p.remaining ≤ 1)
  let stillWaiting :=
    (s.preconnects.filter (fun p => !(p.remaining ≤ 1 : Bool))).map
      (fun p => { p with remaining := p.remaining - 1 })
  { s with preconnects := stillWaiting,
           notifiedPreconnects :=
             completed.map (fun p => (p.pid, rv)) ++ s.notifiedPreconnects }

/-- Launch one TCP/TLS attempt at endpoint `ep`. -/
def launchAttempt (s : JobState) (ep : Nat) : JobState :=
  { s with inFlightAttempts := ⟨s.nextAttemptId, ep, false⟩ :: s.inFlightAttempts,
           attemptHistory := ep :: s.attemptHistory,
           nextAttemptId := s.nextAttemptId + 1 }

/-- Modelled from the spec: one step of `MaybeAttemptConnection`
(`http_stream_pool_job.h:250-251`): never attempt when failing or canceling
(§3 invariants); otherwise consult the admission policy, and on `kAttempt`
select the next endpoint, entering the failing state when the candidates are
exhausted (§4.4). -/
def MaybeAttemptConnection (s : JobState) : JobState :=
  if s.isFailing || s.isCancelingRequests then s
  else
    match CanAttemptConnection s with
    | .kAttempt =>
      match GetIPEndPointToAttempt s with
      | some ep => launchAttempt s ep
      | none => NotifyFailure s
    | _ => s

/-- Modelled from the spec: `CreateTextBasedStreamAndNotify`
(`http_stream_pool_job.h:292-296`) — create a single-use stream and notify
exactly the one highest-priority pending request; the others remain queued
(§4.4). -/
def CreateTextBasedStreamAndNotify (s : JobState) : JobState :=
  match selectBest s.requests with
  | none => s
  | some (b, rest) =>
    { s with requests := rest,
             notifiedRequests := (b.rid, .streamReady false) :: s.notifiedRequests }

/-- Modelled from the spec: `CreateSpdyStreamAndNotify`
(`http_stream_pool_job.h:298`) — adopt the shared multiplexed session and
notify every pending request through it (§4.4). -/
def CreateSpdyStreamAndNotify (s : JobState) : JobState :=
  notifyAllRequests { s with spdySession := true } (.streamReady true)

/-- Modelled from the spec: `RequestStream` (`http_stream_pool_job.h:84-91`):
while failing, a new request is rejected immediately with the already
classified error (§7); otherwise it is enqueued in the priority queue. -/
def handleRequestStream (s : JobState) (priority : Nat) : JobState :=
  if s.isFailing then
    { s with notifiedRequests :=
               (s.nextRequestId, .failed (DetermineFailureKind s) s.errorToNotify)
                 :: s.notifiedRequests,
             nextRequestId := s.nextRequestId + 1 }
  else
    { s with requests := s.requests ++ [⟨s.nextRequestId, priority, s.nextArrival⟩],
             nextRequestId := s.nextRequestId + 1,
             nextArrival := s.nextArrival + 1 }

/-- Modelled from the spec: `Preconnect` (`http_stream_pool_job.h:93-100`):
completes synchronously when the Job already has enough streams/sessions
(a multiplexed session satisfies any count), fails synchronously while
failing, and otherwise queues a `PreconnectEntry`. -/
def handlePreconnect (s : JobState) (numStreams : Nat) : JobState :=
  if s.isFailing then
    { s with notifiedPreconnects :=
               (s.nextPreconnectId, s.errorToNotify) :: s.notifiedPreconnects,
             nextPreconnectId := s.nextPreconnectId + 1 }
  else if s.spdySession || numStreams = 0 then
    { s with notifiedPreconnects :=
               (s.nextPreconnectId, OK) :: s.notifiedPreconnects,
             nextPreconnectId := s.nextPreconnectId + 1 }
  else
    { s with preconnects := s.preconnects ++ [⟨s.nextPreconnectId, numStreams⟩],
             nextPreconnectId := s.nextPreconnectId + 1 }

/-- Remove the in-flight attempt with identifier `aid`. -/
def removeAttempt (s : JobState) (aid : Nat) : JobState :=
  { s with inFlightAttempts := s.inFlightAttempts.filter (fun a => a.aid ≠ aid) }

/-- Modelled from the spec: the success path of `OnInFlightAttemptComplete`
(`http_stream_pool_job.h:316`): the attempt leaves the pool; preconnect
counters are decremented (§4.4); then the stream is delivered — through the
adopted session to every request when the multiplexed protocol was
negotiated, otherwise to the single highest-priority request. -/
def handleAttemptSucceeded (s : JobState) (aid : Nat) (negotiatedSpdy : Bool) :
    JobState :=
  match s.inFlightAttempts.find? (fun a => a.aid = aid) with
  | none => s
  | some _ =>
    let s' := removeAttempt s aid
    if negotiatedSpdy then
      NotifyPreconnectsComplete (CreateSpdyStreamAndNotify s') OK
    else
      CreateTextBasedStreamAndNotify (ProcessPreconnectsAfterAttemptComplete s' OK)

/-- Modelled from the spec: `HandleAttemptFailure`
(`http_stream_pool_job.h:321-322`): record the endpoint in
`failed_ip_endpoints_`; when not canceling, record the error; a
client-auth-required or certificate failure halts retries and notifies the
Job-wide failure (§7); a generic failure decrements preconnect counters and
re-runs the admission policy (retrying the next endpoint, or entering the
failing state on exhaustion, §4.4). -/
def handleAttemptFailed (s : JobState) (aid : Nat) (error : Int)
    (isCert isClientAuth : Bool) : JobState :=
  match s.inFlightAttempts.find? (fun a => a.aid = aid) with
  | none => s
  | some a =>
    let s' := { removeAttempt s aid with
                failedIpEndpoints := insertIfAbsent a.ipEndpoint s.failedIpEndpoints }
    if s'.isCancelingRequests then s'
    else
      let s'' := { s' with errorToNotify := error }
      if isClientAuth then NotifyFailure { s'' with clientAuthCertInfo := some 0 }
      else if isCert then NotifyFailure { s'' with certErrorSslInfo := some 0 }
      else MaybeAttemptConnection (ProcessPreconnectsAfterAttemptComplete s'' error)

/-- Modelled from the spec: `OnInFlightAttemptSlow`
(`http_stream_pool_job.h:319`): mark the attempt slow (reported, not
canceled) and record its endpoint in `slow_ip_endpoints_`. -/
def handleAttemptSlow (s : JobState) (aid : Nat) : JobState :=
  match s.inFlightAttempts.find? (fun a => a.aid = aid) with
  | none => s
  | some a =>
    { s with inFlightAttempts :=
               s.inFlightAttempts.map
                 (fun x => if x.aid = aid then { x with isSlow := true } else x),
             slowIpEndpoints := insertIfAbsent a.ipEndpoint s.slowIpEndpoints }

/-- Modelled from the spec: `OnSpdyThrottleDelayPassed`
(`http_stream_pool_job.h:324`): the one-shot timer releases the throttle and
attempts resume. -/
def handleSpdyThrottleDelayPassed (s : JobState) : JobState :=
  MaybeAttemptConnection { s with spdyThrottleDelayPassed := true }

/-- Modelled from the spec: `OnQuicTaskComplete`
(`http_stream_pool_job.h:141-142`): record the single terminal result of the
alternate-protocol task (§4.5) and re-evaluate admission — a failure releases
the SPDY throttle so TCP/TLS attempts resume (§8 throttle behavior). -/
def handleQuicTaskComplete (s : JobState) (rv : Int) : JobState :=
  MaybeAttemptConnection { s with quicTaskResult := some rv }

/-- Modelled from the spec: `CancelRequests` (`http_stream_pool_job.h:123`):
set `is_canceling_requests_` and deliver `error` to every pending request and
preconnect (§4.4 cancellation). -/
def handleCancelRequests (s : JobState) (error : Int) : JobState :=
  NotifyFailure { s with isCancelingRequests := true, errorToNotify := error }

/-- The external events driving the Job: caller-boundary calls, attempt
outcomes, the throttle timer, and admission re-evaluation. -/
inductive Event where
  | requestStream (priority : Nat)
  | preconnect (numStreams : Nat)
  | maybeAttemptConnection
  | attemptSucceeded (aid : Nat) (negotiatedSpdy : Bool)
  | attemptFailed (aid : Nat) (error : Int) (isCert isClientAuth : Bool)
  | attemptSlow (aid : Nat)
  | spdyThrottleDelayPassed
  | quicTaskComplete (rv : Int)
  | cancelRequests (error : Int)
deriving DecidableEq, Repr

/-- Dispatch one event against the Job state. -/
def applyEvent (s : JobState) : Event → JobState
  | .requestStream priority => handleRequestStream s priority
  | .preconnect numStreams => handlePreconnect s numStreams
  | .maybeAttemptConnection => MaybeAttemptConnection s
  | .attemptSucceeded aid negotiatedSpdy => handleAttemptSucceeded s aid negotiatedSpdy
  | .attemptFailed aid error isCert isClientAuth =>
      handleAttemptFailed s aid error isCert isClientAuth
  | .attemptSlow aid => handleAttemptSlow s aid
  | .spdyThrottleDelayPassed => handleSpdyThrottleDelayPassed s
  | .quicTaskComplete rv => handleQuicTaskComplete s rv
  | .cancelRequests error => handleCancelRequests s error

/-- Run a sequence of events from a given state. -/
def runFrom (s : JobState) (events : List Event) : JobState :=
  events.foldl applyEvent s

/-- Run a sequence of events from the initial state of a Job whose candidate
endpoints are `eps` and whose known HTTP/2 support is `spdy`. -/
def run (eps : List Nat) (spdy : Bool) (events : List Event) : JobState :=
  runFrom (initState eps spdy) events

/-- The identifiers of all requests ever issued to the Job, pending first. -/
def reqIds (s : JobState) : List Nat :=
  s.requests.map (fun r => r.rid) ++ s.notifiedRequests.map (fun q => q.1)

/-- The identifiers of all preconnects ever issued to the Job, pending
first. -/
def preIds (s : JobState) : List Nat :=
  s.preconnects.map (fun p => p.pid) ++ s.notifiedPreconnects.map (fun q => q.1)

/-- The at-most-once / never-dropped bookkeeping invariant of §3: every
request and preconnect identifier ever issued to the Job sits in exactly one
of the pending and the notified collections. -/
def Inv (s : JobState) : Prop :=
  (reqIds s).Nodup ∧ (∀ r, r ∈ reqIds s ↔ r < s.nextRequestId) ∧
  (preIds s).Nodup ∧ (∀ p, p ∈ preIds s ↔ p < s.nextPreconnectId)

/-- Code `net::ERR_CONNECTION_REFUSED` (-102), a generic per-endpoint connect
failure used in the exhaustion scenario. -/
def ERR_CONNECTION_REFUSED : Int := -102

/-- The failure events of the endpoint-exhaustion scenario: attempts
`start, start+1, …, start+n-1` each fail generically. -/
def failEvents : Nat → Nat → List Event
  | _, 0 => []
  | start, n + 1 =>
    .attemptFailed start ERR_CONNECTION_REFUSED false false :: failEvents (start + 1) n

/-- The endpoint-exhaustion scenario of §8: one request arrives, an attempt is
launched, and every launched attempt fails, retrying through the candidate
list until it is exhausted. -/
def exhaustionEvents (eps : List Nat) : List Event :=
  .requestStream 1 :: .maybeAttemptConnection :: failEvents 0 eps.length

/-- The Job state mid-way through the exhaustion scenario: `k` attempts have
failed and attempt `k` (at candidate `k`) is in flight. -/
def exhaustState (eps : List Nat) (k : Nat) : JobState :=
  { serviceEndpoints := eps,
    requests := [⟨0, 1, 0⟩],
    nextRequestId := 1,
    nextArrival := 1,
    inFlightAttempts := [⟨k, eps.getD k 0, false⟩],
    nextAttemptId := k + 1,
    failedIpEndpoints := eps.take k,
    attemptHistory := (eps.take (k + 1)).reverse,
    errorToNotify := if k = 0 then ERR_FAILED else ERR_CONNECTION_REFUSED }

/-- The Job state at the end of the exhaustion scenario: failing, with every
candidate endpoint recorded as failed and attempted exactly once. -/
def exhaustFinal (eps : List Nat) : JobState :=
  { serviceEndpoints := eps,
    requests := [],
    notifiedRequests := [(0, .failed .kStreamFailed ERR_CONNECTION_REFUSED)],
    inFlightAttempts := [],
    attemptHistory := eps.reverse,
    failedIpEndpoints := eps,
    isFailing := true,
    errorToNotify := ERR_CONNECTION_REFUSED,
    nextRequestId := 1,
    nextAttemptId := eps.length,
    nextArrival := 1 }

/-- The Job state during the exhaustion scenario just after failure `k` has
been recorded, before the admission policy is re-run. -/
def exhaustMid (eps : List Nat) (k : Nat) : JobState :=
  { serviceEndpoints := eps,
    requests := [⟨0, 1, 0⟩],
    nextRequestId := 1,
    nextArrival := 1,
    inFlightAttempts := [],
    nextAttemptId := k + 1,
    failedIpEndpoints := eps.take (k + 1),
    attemptHistory := (eps.take (k + 1)).reverse,
    errorToNotify := ERR_CONNECTION_REFUSED }

end HttpStreamPool.Job

/-- C10: for every `open_flags` bitset, `TranslateOpenFlagsToJavaMode` returns
either `none` or one of the Java modes "r", "wt", "wa", "rw", "rwt" — it never
returns the mode "w" — and every unsupported flag combination yields `none`
rather than an arbitrary mode string. -/
theorem translateOpenFlags_never_w (openFlags : Nat) :
    (ContentUriUtils.TranslateOpenFlagsToJavaMode openFlags = none ∨
      ContentUriUtils.TranslateOpenFlagsToJavaMode openFlags ∈
        [some "r", some "wt", some "wa", some "rw", some "rwt"]) ∧
    ContentUriUtils.TranslateOpenFlagsToJavaMode openFlags ≠ some "w" := by
  unfold ContentUriUtils.TranslateOpenFlagsToJavaMode
  dsimp only
  repeat' split
  all_goals simp

/-- C9: the fixed delay used to throttle extra connection attempts toward a
destination known to support HTTP/2 is exactly 300 milliseconds:
`kSpdyThrottleDelay` equals `base::Milliseconds(300)`. -/
theorem kSpdyThrottleDelay_is_300ms :
    HttpStreamPool.kSpdyThrottleDelay = HttpStreamPool.Milliseconds 300 ∧
    HttpStreamPool.kSpdyThrottleDelay.InMilliseconds = 300 ∧
    HttpStreamPool.kSpdyThrottleDelay.microseconds = 300000 := by
  refine ⟨rfl, by decide, by decide⟩

namespace HttpStreamPool.Job

theorem pref_iff {a b : RequestEntry} :
    pref a b = true ↔
      b.priority < a.priority ∨ (a.priority = b.priority ∧ a.arrival < b.arrival) := by
  simp [pref]

theorem pref_asymm {a b : RequestEntry} (h : pref a b = true) : pref b a = false := by
  rw [pref_iff] at h
  rw [Bool.eq_false_iff, Ne, pref_iff]
  omega

theorem pref_neg_trans {a b c : RequestEntry} (h1 : pref a b = false)
    (h2 : pref b c = false) : pref a c = false := by
  rw [Bool.eq_false_iff, Ne, pref_iff] at h1 h2 ⊢
  omega

theorem selectBest_none_iff {l : List RequestEntry} : selectBest l = none ↔ l = [] := by
  cases l with
  | nil => simp [selectBest]
  | cons r rs =>
    simp only [selectBest]
    cases h : selectBest rs with
    | none => simp
    | some p => cases p with
      | mk b rest => by_cases hp : pref b r = true <;> simp [hp]

theorem selectBest_perm : ∀ {l : List RequestEntry} {b : RequestEntry}
    {rest : List RequestEntry}, selectBest l = some (b, rest) → l.Perm (b :: rest)
  | [], _, _, h => by simp [selectBest] at h
  | r :: rs, b, rest, h => by
    simp only [selectBest] at h
    split at h
    · simp only [Option.some.injEq, Prod.mk.injEq] at h
      obtain ⟨rfl, rfl⟩ := h
      next heq => rw [selectBest_none_iff.mp heq]
    · next b' rest' heq =>
      split at h
      · simp only [Option.some.injEq, Prod.mk.injEq] at h
        obtain ⟨rfl, rfl⟩ := h
        exact ((selectBest_perm heq).cons r).trans (List.Perm.swap _ _ _)
      · simp only [Option.some.injEq, Prod.mk.injEq] at h
        obtain ⟨rfl, rfl⟩ := h
        exact List.Perm.refl _

theorem selectBest_best : ∀ {l : List RequestEntry} {b : RequestEntry}
    {rest : List RequestEntry}, selectBest l = some (b, rest) →
    ∀ x ∈ rest, pref x b = false
  | [], _, _, h => by simp [selectBest] at h
  | r :: rs, b, rest, h => by
    simp only [selectBest] at h
    split at h
    · simp only [Option.some.injEq, Prod.mk.injEq] at h
      obtain ⟨rfl, rfl⟩ := h
      intro x hx
      simp at hx
    · next b' rest' heq =>
      split at h
      · next hp =>
        simp only [Option.some.injEq, Prod.mk.injEq] at h
        obtain ⟨rfl, rfl⟩ := h
        intro x hx
        rcases List.mem_cons.mp hx with rfl | hx
        · exact pref_asymm hp
        · exact selectBest_best heq x hx
      · next hp =>
        simp only [Option.some.injEq, Prod.mk.injEq] at h
        obtain ⟨rfl, rfl⟩ := h
        intro x hx
        have hx' : x ∈ b' :: rest' := (selectBest_perm heq).mem_iff.mp hx
        rcases List.mem_cons.mp hx' with rfl | hx'
        · exact Bool.eq_false_iff.mpr hp
        · exact pref_neg_trans (selectBest_best heq x hx') (Bool.eq_false_iff.mpr hp)

end HttpStreamPool.Job

namespace HttpStreamPool.Job

theorem runFrom_nil (s : JobState) : runFrom s [] = s := rfl

theorem runFrom_cons (s : JobState) (e : Event) (es : List Event) :
    runFrom s (e :: es) = runFrom (applyEvent s e) es := rfl

theorem reqIds_notifyAllRequests (s : JobState) (o : RequestOutcome) :
    reqIds (notifyAllRequests s o) = reqIds s := by
  simp [reqIds, notifyAllRequests]

theorem preIds_NotifyPreconnectsComplete (s : JobState) (rv : Int) :
    preIds (NotifyPreconnectsComplete s rv) = preIds s := by
  simp [preIds, NotifyPreconnectsComplete]

theorem reqIds_NotifyFailure (s : JobState) : reqIds (NotifyFailure s) = reqIds s := by
  simp [NotifyFailure, reqIds, NotifyPreconnectsComplete, notifyAllRequests]

theorem preIds_NotifyFailure (s : JobState) : preIds (NotifyFailure s) = preIds s := by
  simp [NotifyFailure, preIds, NotifyPreconnectsComplete, notifyAllRequests]

theorem preIds_ProcessPreconnects (s : JobState) (rv : Int) :
    (preIds (ProcessPreconnectsAfterAttemptComplete s rv)).Perm (preIds s) := by
  simp only [preIds, ProcessPreconnectsAfterAttemptComplete, List.map_map, List.map_append]
  have hperm :
      ((s.preconnects.filter (fun p => !(decide (p.remaining ≤ 1)))).map (fun p => p.pid) ++
        (s.preconnects.filter (fun p => decide (p.remaining ≤ 1))).map (fun p => p.pid)).Perm
        (s.preconnects.map (fun p => p.pid)) := by
    rw [← List.map_append]
    exact ((List.perm_append_comm).trans
      (List.filter_append_perm (fun p => decide (p.remaining ≤ 1)) s.preconnects)).map _
  rw [← List.append_assoc]
  exact hperm.append_right _

end HttpStreamPool.Job

namespace HttpStreamPool.Job

theorem reqIds_CreateText (s : JobState) :
    (reqIds (CreateTextBasedStreamAndNotify s)).Perm (reqIds s) := by
  unfold CreateTextBasedStreamAndNotify
  cases h : selectBest s.requests with
  | none => exact List.Perm.refl _
  | some p =>
    obtain ⟨b, rest⟩ := p
    have hp : (s.requests.map (fun r => r.rid)).Perm (b.rid :: rest.map (fun r => r.rid)) :=
      List.Perm.map _ (selectBest_perm h)
    simp only [reqIds]
    refine List.Perm.trans List.perm_middle ?_
    exact ((hp.symm).append_right _).trans (List.Perm.refl _)

theorem reqIds_launchAttempt (s : JobState) (ep : Nat) :
    reqIds (launchAttempt s ep) = reqIds s := rfl

theorem reqIds_MaybeAttempt (s : JobState) :
    reqIds (MaybeAttemptConnection s) = reqIds s := by
  unfold MaybeAttemptConnection
  repeat' split
  all_goals first | rfl | exact reqIds_NotifyFailure _

theorem preIds_MaybeAttempt (s : JobState) :
    preIds (MaybeAttemptConnection s) = preIds s := by
  unfold MaybeAttemptConnection
  repeat' split
  all_goals first | rfl | exact preIds_NotifyFailure _

theorem nextIds_NotifyFailure (s : JobState) :
    (NotifyFailure s).nextRequestId = s.nextRequestId ∧
    (NotifyFailure s).nextPreconnectId = s.nextPreconnectId := ⟨rfl, rfl⟩

theorem nextIds_MaybeAttempt (s : JobState) :
    (MaybeAttemptConnection s).nextRequestId = s.nextRequestId ∧
    (MaybeAttemptConnection s).nextPreconnectId = s.nextPreconnectId := by
  unfold MaybeAttemptConnection
  repeat' split
  all_goals exact ⟨rfl, rfl⟩

theorem inv_congr {s s' : JobState} (hr : (reqIds s').Perm (reqIds s))
    (hp : (preIds s').Perm (preIds s))
    (hnr : s'.nextRequestId = s.nextRequestId)
    (hnp : s'.nextPreconnectId = s.nextPreconnectId) (h : Inv s) : Inv s' := by
  obtain ⟨h1, h2, h3, h4⟩ := h
  refine ⟨hr.nodup_iff.mpr h1, fun r => ?_, hp.nodup_iff.mpr h3, fun p => ?_⟩
  · rw [hr.mem_iff, hnr]; exact h2 r
  · rw [hp.mem_iff, hnp]; exact h4 p

theorem inv_push_req {s s' : JobState}
    (hr : (reqIds s').Perm (s.nextRequestId :: reqIds s))
    (hp : (preIds s').Perm (preIds s))
    (hnr : s'.nextRequestId = s.nextRequestId + 1)
    (hnp : s'.nextPreconnectId = s.nextPreconnectId) (h : Inv s) : Inv s' := by
  obtain ⟨h1, h2, h3, h4⟩ := h
  have hnotmem : s.nextRequestId ∉ reqIds s := fun hm => by
    have := (h2 _).mp hm; omega
  refine ⟨hr.nodup_iff.mpr (List.nodup_cons.mpr ⟨hnotmem, h1⟩), fun r => ?_,
    hp.nodup_iff.mpr h3, fun p => ?_⟩
  · rw [hr.mem_iff, List.mem_cons, hnr]
    constructor
    · rintro (rfl | hm)
      · omega
      · have := (h2 r).mp hm; omega
    · intro hlt
      by_cases hr' : r = s.nextRequestId
      · exact Or.inl hr'
      · exact Or.inr ((h2 r).mpr (by omega))
  · rw [hp.mem_iff, hnp]; exact h4 p

theorem inv_push_pre {s s' : JobState}
    (hr : (reqIds s').Perm (reqIds s))
    (hp : (preIds s').Perm (s.nextPreconnectId :: preIds s))
    (hnr : s'.nextRequestId = s.nextRequestId)
    (hnp : s'.nextPreconnectId = s.nextPreconnectId + 1) (h : Inv s) : Inv s' := by
  obtain ⟨h1, h2, h3, h4⟩ := h
  have hnotmem : s.nextPreconnectId ∉ preIds s := fun hm => by
    have := (h4 _).mp hm; omega
  refine ⟨hr.nodup_iff.mpr h1, fun r => ?_,
    hp.nodup_iff.mpr (List.nodup_cons.mpr ⟨hnotmem, h3⟩), fun p => ?_⟩
  · rw [hr.mem_iff, hnr]; exact h2 r
  · rw [hp.mem_iff, List.mem_cons, hnp]
    constructor
    · rintro (rfl | hm)
      · omega
      · have := (h4 p).mp hm; omega
    · intro hlt
      by_cases hp' : p = s.nextPreconnectId
      · exact Or.inl hp'
      · exact Or.inr ((h4 p).mpr (by omega))

end HttpStreamPool.Job

namespace HttpStreamPool.Job

theorem inv_handleRequestStream (s : JobState) (p : Nat) (h : Inv s) :
    Inv (handleRequestStream s p) := by
  unfold handleRequestStream
  split
  · refine inv_push_req ?_ ?_ ?_ ?_ h
    · simp only [reqIds]
      exact List.perm_middle
    · exact List.Perm.refl _
    · rfl
    · rfl
  · refine inv_push_req ?_ ?_ ?_ ?_ h
    · simp only [reqIds, List.map_append]
      rw [List.append_assoc]
      exact List.perm_middle
    · exact List.Perm.refl _
    · rfl
    · rfl

theorem inv_handlePreconnect (s : JobState) (n : Nat) (h : Inv s) :
    Inv (handlePreconnect s n) := by
  unfold handlePreconnect
  split
  · refine inv_push_pre ?_ ?_ ?_ ?_ h
    · exact List.Perm.refl _
    · simp only [preIds]
      exact List.perm_middle
    · rfl
    · rfl
  · split
    · refine inv_push_pre ?_ ?_ ?_ ?_ h
      · exact List.Perm.refl _
      · simp only [preIds]
        exact List.perm_middle
      · rfl
      · rfl
    · refine inv_push_pre ?_ ?_ ?_ ?_ h
      · exact List.Perm.refl _
      · simp only [preIds, List.map_append]
        rw [List.append_assoc]
        exact List.perm_middle
      · rfl
      · rfl

theorem inv_MaybeAttempt (s : JobState) (h : Inv s) : Inv (MaybeAttemptConnection s) :=
  inv_congr (by rw [reqIds_MaybeAttempt]) (by rw [preIds_MaybeAttempt])
    (nextIds_MaybeAttempt s).1 (nextIds_MaybeAttempt s).2 h

end HttpStreamPool.Job

namespace HttpStreamPool.Job

theorem handleAttemptSucceeded_eq_none {s : JobState} {aid : Nat} {nsp : Bool}
    (h : s.inFlightAttempts.find? (fun a => a.aid = aid) = none) :
    handleAttemptSucceeded s aid nsp = s := by
  unfold handleAttemptSucceeded
  rw [h]

theorem handleAttemptSucceeded_eq_some {s : JobState} {aid : Nat} {nsp : Bool}
    {a : InFlightAttempt}
    (h : s.inFlightAttempts.find? (fun x => x.aid = aid) = some a) :
    handleAttemptSucceeded s aid nsp =
      if nsp then
        NotifyPreconnectsComplete (CreateSpdyStreamAndNotify (removeAttempt s aid)) OK
      else
        CreateTextBasedStreamAndNotify
          (ProcessPreconnectsAfterAttemptComplete (removeAttempt s aid) OK) := by
  unfold handleAttemptSucceeded
  rw [h]

theorem handleAttemptFailed_eq_none {s : JobState} {aid : Nat} {error : Int}
    {isCert isClientAuth : Bool}
    (h : s.inFlightAttempts.find? (fun a => a.aid = aid) = none) :
    handleAttemptFailed s aid error isCert isClientAuth = s := by
  unfold handleAttemptFailed
  rw [h]

theorem handleAttemptFailed_eq_some {s : JobState} {aid : Nat} {error : Int}
    {isCert isClientAuth : Bool} {a : InFlightAttempt}
    (h : s.inFlightAttempts.find? (fun x => x.aid = aid) = some a) :
    handleAttemptFailed s aid error isCert isClientAuth =
      (if s.isCancelingRequests then
        { removeAttempt s aid with
          failedIpEndpoints := insertIfAbsent a.ipEndpoint s.failedIpEndpoints }
      else if isClientAuth then
        NotifyFailure
          { removeAttempt s aid with
            failedIpEndpoints := insertIfAbsent a.ipEndpoint s.failedIpEndpoints,
            errorToNotify := error, clientAuthCertInfo := some 0 }
      else if isCert then
        NotifyFailure
          { removeAttempt s aid with
            failedIpEndpoints := insertIfAbsent a.ipEndpoint s.failedIpEndpoints,
            errorToNotify := error, certErrorSslInfo := some 0 }
      else
        MaybeAttemptConnection
          (ProcessPreconnectsAfterAttemptComplete
            { removeAttempt s aid with
              failedIpEndpoints := insertIfAbsent a.ipEndpoint s.failedIpEndpoints,
              errorToNotify := error } error)) := by
  unfold handleAttemptFailed
  rw [h]
  rfl

theorem handleAttemptSlow_eq_none {s : JobState} {aid : Nat}
    (h : s.inFlightAttempts.find? (fun a => a.aid = aid) = none) :
    handleAttemptSlow s aid = s := by
  unfold handleAttemptSlow
  rw [h]

theorem handleAttemptSlow_eq_some {s : JobState} {aid : Nat} {a : InFlightAttempt}
    (h : s.inFlightAttempts.find? (fun x => x.aid = aid) = some a) :
    handleAttemptSlow s aid =
      { s with inFlightAttempts :=
                 s.inFlightAttempts.map
                   (fun x => if x.aid = aid then { x with isSlow := true } else x),
               slowIpEndpoints := insertIfAbsent a.ipEndpoint s.slowIpEndpoints } := by
  unfold handleAttemptSlow
  rw [h]

theorem reqIds_NotifyPreconnectsComplete (s : JobState) (rv : Int) :
    reqIds (NotifyPreconnectsComplete s rv) = reqIds s := rfl

theorem reqIds_CreateSpdy (s : JobState) :
    reqIds (CreateSpdyStreamAndNotify s) = reqIds s := by
  unfold CreateSpdyStreamAndNotify
  rw [reqIds_notifyAllRequests]
  rfl

theorem preIds_CreateSpdy (s : JobState) :
    preIds (CreateSpdyStreamAndNotify s) = preIds s := rfl

theorem preIds_CreateText (s : JobState) :
    preIds (CreateTextBasedStreamAndNotify s) = preIds s := by
  unfold CreateTextBasedStreamAndNotify
  split <;> rfl

theorem nextIds_CreateText (s : JobState) :
    (CreateTextBasedStreamAndNotify s).nextRequestId = s.nextRequestId ∧
    (CreateTextBasedStreamAndNotify s).nextPreconnectId = s.nextPreconnectId := by
  unfold CreateTextBasedStreamAndNotify
  constructor <;> (split <;> rfl)

end HttpStreamPool.Job

namespace HttpStreamPool.Job

theorem inv_handleAttemptSucceeded (s : JobState) (aid : Nat) (nsp : Bool) (h : Inv s) :
    Inv (handleAttemptSucceeded s aid nsp) := by
  cases hf : s.inFlightAttempts.find? (fun a => a.aid = aid) with
  | none => rw [handleAttemptSucceeded_eq_none hf]; exact h
  | some a =>
    rw [handleAttemptSucceeded_eq_some hf]
    split
    · refine inv_congr ?_ ?_ ?_ ?_ h
      · rw [reqIds_NotifyPreconnectsComplete, reqIds_CreateSpdy]
        exact List.Perm.refl _
      · rw [preIds_NotifyPreconnectsComplete, preIds_CreateSpdy]
        exact List.Perm.refl _
      · rfl
      · rfl
    · refine inv_congr ?_ ?_ ?_ ?_ h
      · exact (reqIds_CreateText _).trans (List.Perm.refl _)
      · rw [preIds_CreateText]
        exact preIds_ProcessPreconnects _ _
      · exact (nextIds_CreateText _).1
      · exact (nextIds_CreateText _).2

theorem inv_handleAttemptFailed (s : JobState) (aid : Nat) (error : Int)
    (isCert isClientAuth : Bool) (h : Inv s) :
    Inv (handleAttemptFailed s aid error isCert isClientAuth) := by
  cases hf : s.inFlightAttempts.find? (fun a => a.aid = aid) with
  | none => rw [handleAttemptFailed_eq_none hf]; exact h
  | some a =>
    rw [handleAttemptFailed_eq_some hf]
    split
    · refine inv_congr ?_ ?_ ?_ ?_ h <;> first | exact List.Perm.refl _ | rfl
    · split
      · refine inv_congr ?_ ?_ ?_ ?_ h
        · rw [reqIds_NotifyFailure]; exact List.Perm.refl _
        · rw [preIds_NotifyFailure]; exact List.Perm.refl _
        · exact (nextIds_NotifyFailure _).1
        · exact (nextIds_NotifyFailure _).2
      · split
        · refine inv_congr ?_ ?_ ?_ ?_ h
          · rw [reqIds_NotifyFailure]; exact List.Perm.refl _
          · rw [preIds_NotifyFailure]; exact List.Perm.refl _
          · exact (nextIds_NotifyFailure _).1
          · exact (nextIds_NotifyFailure _).2
        · refine inv_congr ?_ ?_ ?_ ?_ h
          · rw [reqIds_MaybeAttempt]; exact List.Perm.refl _
          · rw [preIds_MaybeAttempt]
            exact preIds_ProcessPreconnects _ _
          · exact (nextIds_MaybeAttempt _).1
          · exact (nextIds_MaybeAttempt _).2

theorem inv_handleAttemptSlow (s : JobState) (aid : Nat) (h : Inv s) :
    Inv (handleAttemptSlow s aid) := by
  cases hf : s.inFlightAttempts.find? (fun a => a.aid = aid) with
  | none => rw [handleAttemptSlow_eq_none hf]; exact h
  | some a =>
    rw [handleAttemptSlow_eq_some hf]
    refine inv_congr ?_ ?_ ?_ ?_ h <;> first | exact List.Perm.refl _ | rfl

theorem inv_applyEvent (s : JobState) (e : Event) (h : Inv s) : Inv (applyEvent s e) := by
  cases e with
  | requestStream p => exact inv_handleRequestStream s p h
  | preconnect n => exact inv_handlePreconnect s n h
  | maybeAttemptConnection => exact inv_MaybeAttempt s h
  | attemptSucceeded aid nsp => exact inv_handleAttemptSucceeded s aid nsp h
  | attemptFailed aid error isCert isClientAuth =>
    exact inv_handleAttemptFailed s aid error isCert isClientAuth h
  | attemptSlow aid => exact inv_handleAttemptSlow s aid h
  | spdyThrottleDelayPassed => exact inv_MaybeAttempt _ h
  | quicTaskComplete rv => exact inv_MaybeAttempt _ h
  | cancelRequests error =>
    refine inv_congr ?_ ?_ ?_ ?_ h
    · rw [show applyEvent s (.cancelRequests error) = handleCancelRequests s error from rfl]
      unfold handleCancelRequests
      rw [reqIds_NotifyFailure]
      exact List.Perm.refl _
    · rw [show applyEvent s (.cancelRequests error) = handleCancelRequests s error from rfl]
      unfold handleCancelRequests
      rw [preIds_NotifyFailure]
      exact List.Perm.refl _
    · exact (nextIds_NotifyFailure _).1
    · exact (nextIds_NotifyFailure _).2

theorem inv_runFrom (s : JobState) (events : List Event) (h : Inv s) :
    Inv (runFrom s events) := by
  induction events generalizing s with
  | nil => exact h
  | cons e es ih => exact ih (applyEvent s e) (inv_applyEvent s e h)

theorem inv_initState (eps : List Nat) (spdy : Bool) : Inv (initState eps spdy) := by
  refine ⟨List.nodup_nil, ?_, List.nodup_nil, ?_⟩ <;> intro x <;> simp [initState, reqIds, preIds]

end HttpStreamPool.Job

namespace HttpStreamPool.Job

/-- Both notified ledgers only grow: helper for single operations. -/
theorem suffix_NotifyFailure (s : JobState) :
    s.notifiedRequests <:+ (NotifyFailure s).notifiedRequests ∧
    s.notifiedPreconnects <:+ (NotifyFailure s).notifiedPreconnects :=
  ⟨List.suffix_append _ _, List.suffix_append _ _⟩

theorem suffix_MaybeAttempt (s : JobState) :
    s.notifiedRequests <:+ (MaybeAttemptConnection s).notifiedRequests ∧
    s.notifiedPreconnects <:+ (MaybeAttemptConnection s).notifiedPreconnects := by
  unfold MaybeAttemptConnection
  repeat' split
  all_goals
    first
      | exact ⟨List.suffix_refl _, List.suffix_refl _⟩
      | exact ⟨List.suffix_append _ _, List.suffix_append _ _⟩

theorem suffix_CreateText (s : JobState) :
    s.notifiedRequests <:+ (CreateTextBasedStreamAndNotify s).notifiedRequests ∧
    s.notifiedPreconnects <:+ (CreateTextBasedStreamAndNotify s).notifiedPreconnects := by
  unfold CreateTextBasedStreamAndNotify
  split
  · exact ⟨List.suffix_refl _, List.suffix_refl _⟩
  · exact ⟨List.suffix_cons _ _, List.suffix_refl _⟩

theorem suffix_ProcessPre (s : JobState) (rv : Int) :
    s.notifiedRequests <:+ (ProcessPreconnectsAfterAttemptComplete s rv).notifiedRequests ∧
    s.notifiedPreconnects <:+
      (ProcessPreconnectsAfterAttemptComplete s rv).notifiedPreconnects :=
  ⟨List.suffix_refl _, List.suffix_append _ _⟩

theorem notified_suffix_applyEvent (s : JobState) (e : Event) :
    s.notifiedRequests <:+ (applyEvent s e).notifiedRequests ∧
    s.notifiedPreconnects <:+ (applyEvent s e).notifiedPreconnects := by
  cases e with
  | requestStream p =>
    show s.notifiedRequests <:+ (handleRequestStream s p).notifiedRequests ∧
      s.notifiedPreconnects <:+ (handleRequestStream s p).notifiedPreconnects
    unfold handleRequestStream
    split
    · exact ⟨List.suffix_cons _ _, List.suffix_refl _⟩
    · exact ⟨List.suffix_refl _, List.suffix_refl _⟩
  | preconnect n =>
    show s.notifiedRequests <:+ (handlePreconnect s n).notifiedRequests ∧
      s.notifiedPreconnects <:+ (handlePreconnect s n).notifiedPreconnects
    unfold handlePreconnect
    repeat' split
    all_goals
      first
        | exact ⟨List.suffix_refl _, List.suffix_refl _⟩
        | exact ⟨List.suffix_refl _, List.suffix_cons _ _⟩
  | maybeAttemptConnection => exact suffix_MaybeAttempt s
  | attemptSucceeded aid nsp =>
    show s.notifiedRequests <:+ (handleAttemptSucceeded s aid nsp).notifiedRequests ∧
      s.notifiedPreconnects <:+ (handleAttemptSucceeded s aid nsp).notifiedPreconnects
    cases hf : s.inFlightAttempts.find? (fun a => a.aid = aid) with
    | none =>
      rw [handleAttemptSucceeded_eq_none hf]
      exact ⟨List.suffix_refl _, List.suffix_refl _⟩
    | some a =>
      rw [handleAttemptSucceeded_eq_some hf]
      split
      · exact ⟨List.suffix_append _ _, List.suffix_append _ _⟩
      · refine ⟨List.IsSuffix.trans ?_ (suffix_CreateText _).1,
          List.IsSuffix.trans ?_ (suffix_CreateText _).2⟩
        · exact (suffix_ProcessPre (removeAttempt s aid) OK).1
        · exact (suffix_ProcessPre (removeAttempt s aid) OK).2
  | attemptFailed aid error isCert isClientAuth =>
    show s.notifiedRequests <:+
      (handleAttemptFailed s aid error isCert isClientAuth).notifiedRequests ∧
      s.notifiedPreconnects <:+
        (handleAttemptFailed s aid error isCert isClientAuth).notifiedPreconnects
    cases hf : s.inFlightAttempts.find? (fun a => a.aid = aid) with
    | none =>
      rw [handleAttemptFailed_eq_none hf]
      exact ⟨List.suffix_refl _, List.suffix_refl _⟩
    | some a =>
      rw [handleAttemptFailed_eq_some hf]
      split
      · exact ⟨List.suffix_refl _, List.suffix_refl _⟩
      · split
        · exact ⟨List.suffix_append _ _, List.suffix_append _ _⟩
        · split
          · exact ⟨List.suffix_append _ _, List.suffix_append _ _⟩
          · refine ⟨List.IsSuffix.trans ?_ (suffix_MaybeAttempt _).1,
              List.IsSuffix.trans ?_ (suffix_MaybeAttempt _).2⟩
            · exact (suffix_ProcessPre _ error).1
            · exact (suffix_ProcessPre _ error).2
  | attemptSlow aid =>
    show s.notifiedRequests <:+ (handleAttemptSlow s aid).notifiedRequests ∧
      s.notifiedPreconnects <:+ (handleAttemptSlow s aid).notifiedPreconnects
    cases hf : s.inFlightAttempts.find? (fun a => a.aid = aid) with
    | none =>
      rw [handleAttemptSlow_eq_none hf]
      exact ⟨List.suffix_refl _, List.suffix_refl _⟩
    | some a =>
      rw [handleAttemptSlow_eq_some hf]
      exact ⟨List.suffix_refl _, List.suffix_refl _⟩
  | spdyThrottleDelayPassed =>
    exact suffix_MaybeAttempt { s with spdyThrottleDelayPassed := true }
  | quicTaskComplete rv =>
    exact suffix_MaybeAttempt { s with quicTaskResult := some rv }
  | cancelRequests error =>
    exact suffix_NotifyFailure { s with isCancelingRequests := true, errorToNotify := error }

end HttpStreamPool.Job

namespace HttpStreamPool.Job

/-- C1: over the Job's whole lifetime, every request and every preconnect
issued to the Job is delivered exactly one terminal callback: after any
reachable sequence of events, the identifiers in the pending queue and the
notified set are pairwise distinct and together are exactly the identifiers
ever issued (never zero, never more than one notification, none dropped); a
RequestEntry moves from `requests_` to `notified_requests_` at the instant its
result is delivered, and the notified ledgers only grow, so no entry is ever
notified again. -/
theorem job_notification_exactly_once (eps : List Nat) (spdy : Bool)
    (events : List Event) (e : Event) :
    ((reqIds (run eps spdy events)).Nodup ∧
      (∀ r, r ∈ reqIds (run eps spdy events) ↔
        r < (run eps spdy events).nextRequestId)) ∧
    ((preIds (run eps spdy events)).Nodup ∧
      (∀ p, p ∈ preIds (run eps spdy events) ↔
        p < (run eps spdy events).nextPreconnectId)) ∧
    (run eps spdy events).notifiedRequests <:+
      (applyEvent (run eps spdy events) e).notifiedRequests ∧
    (run eps spdy events).notifiedPreconnects <:+
      (applyEvent (run eps spdy events) e).notifiedPreconnects := by
  have hinv := inv_runFrom (initState eps spdy) events (inv_initState eps spdy)
  obtain ⟨h1, h2, h3, h4⟩ := hinv
  exact ⟨⟨h1, h2⟩, ⟨h3, h4⟩,
    (notified_suffix_applyEvent _ e).1,
    (notified_suffix_applyEvent _ e).2⟩

end HttpStreamPool.Job

namespace HttpStreamPool.Job

/-- C2: when a single non-multiplexed stream becomes available, exactly the
one pending request with the highest priority (FIFO tie-break on arrival) is
notified with it, and every other pending request remains queued. -/
theorem single_stream_notifies_highest_priority (s : JobState) (aid : Nat)
    (b : RequestEntry) (rest : List RequestEntry)
    (hsel : selectBest s.requests = some (b, rest))
    (hfind : (s.inFlightAttempts.find? (fun a => a.aid = aid)).isSome = true) :
    (applyEvent s (.attemptSucceeded aid false)).requests = rest ∧
    (applyEvent s (.attemptSucceeded aid false)).notifiedRequests =
      (b.rid, .streamReady false) :: s.notifiedRequests ∧
    s.requests.Perm (b :: rest) ∧
    (∀ x ∈ rest, pref x b = false) := by
  obtain ⟨a, ha⟩ := Option.isSome_iff_exists.mp hfind
  have h1 : applyEvent s (.attemptSucceeded aid false) =
      CreateTextBasedStreamAndNotify
        (ProcessPreconnectsAfterAttemptComplete (removeAttempt s aid) OK) := by
    rw [show applyEvent s (.attemptSucceeded aid false) =
      handleAttemptSucceeded s aid false from rfl]
    rw [handleAttemptSucceeded_eq_some ha]
    rfl
  have hreq : (ProcessPreconnectsAfterAttemptComplete (removeAttempt s aid) OK).requests =
      s.requests := rfl
  rw [h1]
  unfold CreateTextBasedStreamAndNotify
  rw [hreq, hsel]
  exact ⟨rfl, rfl, selectBest_perm hsel, selectBest_best hsel⟩

/-- Witness for C2 at the scenario from the claim: requests A (HIGH, priority
5) and B (LOW, priority 2) both pending with one attempt in flight; when the
single stream arrives, A is notified with it and B remains pending. -/
theorem single_stream_notifies_highest_priority_witness :
    (selectBest (run [10] false
        [.requestStream 5, .requestStream 2, .maybeAttemptConnection]).requests =
      some (⟨0, 5, 0⟩, [⟨1, 2, 1⟩])) ∧
    ((run [10] false
        [.requestStream 5, .requestStream 2, .maybeAttemptConnection]).inFlightAttempts.find?
        (fun a => a.aid = 0)).isSome = true ∧
    (applyEvent (run [10] false
        [.requestStream 5, .requestStream 2, .maybeAttemptConnection])
        (.attemptSucceeded 0 false)).requests = [⟨1, 2, 1⟩] ∧
    (applyEvent (run [10] false
        [.requestStream 5, .requestStream 2, .maybeAttemptConnection])
        (.attemptSucceeded 0 false)).notifiedRequests =
      [(0, .streamReady false)] := by
  have h := single_stream_notifies_highest_priority
    (run [10] false [.requestStream 5, .requestStream 2, .maybeAttemptConnection])
    0 ⟨0, 5, 0⟩ [⟨1, 2, 1⟩] (by decide) (by decide)
  exact ⟨by decide, by decide, h.1, by
    rw [h.2.1]
    decide⟩

end HttpStreamPool.Job

namespace HttpStreamPool.Job

/-- C3: on entering the failing state the Job computes one `FailureKind` from
the failures captured across all attempts — client-auth-required and
certificate errors always win over a generic stream-attempt failure — and
delivers that same classified failure to every waiter: when an attempt fails
with a certificate error (after any other attempts failed generically), every
pending request and preconnect is notified of the certificate error. -/
theorem cert_error_precedence (s : JobState) (aid : Nat) (error : Int)
    (a : InFlightAttempt)
    (ha : s.inFlightAttempts.find? (fun x => x.aid = aid) = some a)
    (hcancel : s.isCancelingRequests = false)
    (hauth : s.clientAuthCertInfo = none) :
    (applyEvent s (.attemptFailed aid error true false)).isFailing = true ∧
    (applyEvent s (.attemptFailed aid error true false)).requests = [] ∧
    (applyEvent s (.attemptFailed aid error true false)).notifiedRequests =
      s.requests.map (fun r => (r.rid, .failed .kCertifcateError error)) ++
        s.notifiedRequests ∧
    (applyEvent s (.attemptFailed aid error true false)).notifiedPreconnects =
      s.preconnects.map (fun p => (p.pid, error)) ++ s.notifiedPreconnects ∧
    (∀ t : JobState, t.clientAuthCertInfo.isSome = true →
      DetermineFailureKind t = .kNeedsClientAuth) ∧
    (∀ t : JobState, t.clientAuthCertInfo = none → t.certErrorSslInfo.isSome = true →
      DetermineFailureKind t = .kCertifcateError) ∧
    (∀ t : JobState, t.clientAuthCertInfo = none → t.certErrorSslInfo = none →
      DetermineFailureKind t = .kStreamFailed) := by
  have h1 : applyEvent s (.attemptFailed aid error true false) =
      handleAttemptFailed s aid error true false := rfl
  rw [h1, handleAttemptFailed_eq_some ha]
  simp only [hcancel, Bool.false_eq_true, if_false, Bool.true_eq_false]
  refine ⟨?_, ?_, ?_, ?_, ?_, ?_, ?_⟩
  · rfl
  · rfl
  · simp [NotifyFailure, notifyAllRequests, NotifyPreconnectsComplete,
      DetermineFailureKind, hauth, removeAttempt]
  · simp [NotifyFailure, notifyAllRequests, NotifyPreconnectsComplete, removeAttempt]
  · intro t ht
    simp [DetermineFailureKind, ht]
  · intro t ht hc
    simp [DetermineFailureKind, ht, hc]
  · intro t ht hc
    simp [DetermineFailureKind, ht, hc]

/-- Witness for C3: two requests pending, attempt 0 fails generically, then
attempt 1 fails with a certificate error; both requests are notified of the
certificate error, not the generic one. -/
theorem cert_error_precedence_witness :
    ((run [10, 11] false
        [.requestStream 1, .requestStream 2, .maybeAttemptConnection,
         .maybeAttemptConnection,
         .attemptFailed 0 (-101) false false]).inFlightAttempts.find?
        (fun x => x.aid = 1) = some ⟨1, 10, false⟩) ∧
    (applyEvent (run [10, 11] false
        [.requestStream 1, .requestStream 2, .maybeAttemptConnection,
         .maybeAttemptConnection, .attemptFailed 0 (-101) false false])
        (.attemptFailed 1 (-200) true false)).notifiedRequests =
      [(0, .failed .kCertifcateError (-200)), (1, .failed .kCertifcateError (-200))] := by
  have h := cert_error_precedence
    (run [10, 11] false
      [.requestStream 1, .requestStream 2, .maybeAttemptConnection,
       .maybeAttemptConnection, .attemptFailed 0 (-101) false false])
    1 (-200) ⟨1, 10, false⟩ (by decide) (by decide) (by decide)
  refine ⟨by decide, ?_⟩
  rw [h.2.2.1]
  decide

end HttpStreamPool.Job

namespace HttpStreamPool.Job

theorem MaybeAttempt_frozen (s : JobState)
    (h : s.isFailing = true ∨ s.isCancelingRequests = true) :
    MaybeAttemptConnection s = s := by
  have hb : (s.isFailing || s.isCancelingRequests) = true := by
    rcases h with h | h <;> simp [h]
  unfold MaybeAttemptConnection
  rw [hb]
  rfl

theorem frozen_MaybeAttempt_pair (t : JobState)
    (ht : t.isFailing = true ∨ t.isCancelingRequests = true) :
    (MaybeAttemptConnection t).attemptHistory = t.attemptHistory ∧
    ((MaybeAttemptConnection t).isFailing = true ∨
      (MaybeAttemptConnection t).isCancelingRequests = true) := by
  rw [MaybeAttempt_frozen t ht]
  exact ⟨rfl, ht⟩

theorem frozen_CreateText (s : JobState) :
    (CreateTextBasedStreamAndNotify s).attemptHistory = s.attemptHistory ∧
    (CreateTextBasedStreamAndNotify s).isFailing = s.isFailing ∧
    (CreateTextBasedStreamAndNotify s).isCancelingRequests = s.isCancelingRequests := by
  refine ⟨?_, ?_, ?_⟩ <;> (unfold CreateTextBasedStreamAndNotify; split <;> rfl)

theorem failing_frozen_applyEvent (s : JobState) (e : Event)
    (h : s.isFailing = true ∨ s.isCancelingRequests = true) :
    (applyEvent s e).attemptHistory = s.attemptHistory ∧
    ((applyEvent s e).isFailing = true ∨ (applyEvent s e).isCancelingRequests = true) := by
  cases e with
  | requestStream p =>
    show (handleRequestStream s p).attemptHistory = s.attemptHistory ∧
      ((handleRequestStream s p).isFailing = true ∨
        (handleRequestStream s p).isCancelingRequests = true)
    unfold handleRequestStream
    split <;> exact ⟨rfl, h⟩
  | preconnect n =>
    show (handlePreconnect s n).attemptHistory = s.attemptHistory ∧
      ((handlePreconnect s n).isFailing = true ∨
        (handlePreconnect s n).isCancelingRequests = true)
    unfold handlePreconnect
    repeat' split
    all_goals exact ⟨rfl, h⟩
  | maybeAttemptConnection => exact frozen_MaybeAttempt_pair s h
  | attemptSucceeded aid nsp =>
    show (handleAttemptSucceeded s aid nsp).attemptHistory = s.attemptHistory ∧
      ((handleAttemptSucceeded s aid nsp).isFailing = true ∨
        (handleAttemptSucceeded s aid nsp).isCancelingRequests = true)
    cases hf : s.inFlightAttempts.find? (fun a => a.aid = aid) with
    | none => rw [handleAttemptSucceeded_eq_none hf]; exact ⟨rfl, h⟩
    | some a =>
      rw [handleAttemptSucceeded_eq_some hf]
      split
      · exact ⟨rfl, h⟩
      · refine ⟨?_, ?_⟩
        · exact (frozen_CreateText _).1
        · rcases h with h | h
          · exact Or.inl (((frozen_CreateText _).2.1).trans h)
          · exact Or.inr (((frozen_CreateText _).2.2).trans h)
  | attemptFailed aid error isCert isClientAuth =>
    show (handleAttemptFailed s aid error isCert isClientAuth).attemptHistory =
      s.attemptHistory ∧
      ((handleAttemptFailed s aid error isCert isClientAuth).isFailing = true ∨
        (handleAttemptFailed s aid error isCert isClientAuth).isCancelingRequests = true)
    cases hf : s.inFlightAttempts.find? (fun a => a.aid = aid) with
    | none => rw [handleAttemptFailed_eq_none hf]; exact ⟨rfl, h⟩
    | some a =>
      rw [handleAttemptFailed_eq_some hf]
      by_cases hc : s.isCancelingRequests = true
      · rw [if_pos hc]
        exact ⟨rfl, Or.inr hc⟩
      · rw [if_neg hc]
        have hfail : s.isFailing = true := by
          rcases h with h | h
          · exact h
          · exact absurd h hc
        split
        · exact ⟨rfl, Or.inl rfl⟩
        · split
          · exact ⟨rfl, Or.inl rfl⟩
          · exact frozen_MaybeAttempt_pair
              (ProcessPreconnectsAfterAttemptComplete
                { removeAttempt s aid with
                  failedIpEndpoints := insertIfAbsent a.ipEndpoint s.failedIpEndpoints,
                  errorToNotify := error } error)
              (Or.inl hfail)
  | attemptSlow aid =>
    show (handleAttemptSlow s aid).attemptHistory = s.attemptHistory ∧
      ((handleAttemptSlow s aid).isFailing = true ∨
        (handleAttemptSlow s aid).isCancelingRequests = true)
    cases hf : s.inFlightAttempts.find? (fun a => a.aid = aid) with
    | none => rw [handleAttemptSlow_eq_none hf]; exact ⟨rfl, h⟩
    | some a => rw [handleAttemptSlow_eq_some hf]; exact ⟨rfl, h⟩
  | spdyThrottleDelayPassed =>
    exact frozen_MaybeAttempt_pair { s with spdyThrottleDelayPassed := true } h
  | quicTaskComplete rv =>
    exact frozen_MaybeAttempt_pair { s with quicTaskResult := some rv } h
  | cancelRequests error =>
    exact ⟨rfl, Or.inl rfl⟩

/-- C4: once the Job has entered the failing state or cancellation has been
requested, no TCP/TLS connection attempt is ever launched again (the attempt
ledger stays frozen over every subsequent event sequence, and the state stays
failing/canceling), and while failing every newly arriving request is
rejected immediately with the already-classified error instead of being
queued. -/
theorem no_attempts_once_failing (s : JobState) (events : List Event) (p : Nat)
    (h : s.isFailing = true ∨ s.isCancelingRequests = true) :
    (runFrom s events).attemptHistory = s.attemptHistory ∧
    ((runFrom s events).isFailing = true ∨
      (runFrom s events).isCancelingRequests = true) ∧
    (s.isFailing = true →
      applyEvent s (.requestStream p) =
        { s with notifiedRequests :=
                   (s.nextRequestId, .failed (DetermineFailureKind s) s.errorToNotify)
                     :: s.notifiedRequests,
                 nextRequestId := s.nextRequestId + 1 }) := by
  have hmain : ∀ (evs : List Event) (t : JobState),
      t.isFailing = true ∨ t.isCancelingRequests = true →
      (runFrom t evs).attemptHistory = t.attemptHistory ∧
      ((runFrom t evs).isFailing = true ∨ (runFrom t evs).isCancelingRequests = true) := by
    intro evs
    induction evs with
    | nil => exact fun t ht => ⟨rfl, ht⟩
    | cons e es ih =>
      intro t ht
      have h1 := failing_frozen_applyEvent t e ht
      have h2 := ih (applyEvent t e) h1.2
      exact ⟨h2.1.trans h1.1, h2.2⟩
  refine ⟨(hmain events s h).1, (hmain events s h).2, ?_⟩
  intro hfail
  show handleRequestStream s p = _
  unfold handleRequestStream
  rw [if_pos hfail]

/-- Witness for C4: a Job that failed after exhausting its single endpoint
launches no further attempt across later events, and rejects a newly arriving
request immediately. -/
theorem no_attempts_once_failing_witness :
    (run [10] false
      [.requestStream 1, .maybeAttemptConnection,
       .attemptFailed 0 (-101) false false]).isFailing = true ∧
    (runFrom (run [10] false
        [.requestStream 1, .maybeAttemptConnection,
         .attemptFailed 0 (-101) false false])
        [.maybeAttemptConnection, .requestStream 3,
         .spdyThrottleDelayPassed]).attemptHistory =
      (run [10] false
        [.requestStream 1, .maybeAttemptConnection,
         .attemptFailed 0 (-101) false false]).attemptHistory := by
  refine ⟨by decide, ?_⟩
  exact (no_attempts_once_failing
    (run [10] false
      [.requestStream 1, .maybeAttemptConnection, .attemptFailed 0 (-101) false false])
    [.maybeAttemptConnection, .requestStream 3, .spdyThrottleDelayPassed] 3
    (Or.inl (by decide))).1

end HttpStreamPool.Job

namespace HttpStreamPool.Job

/-- C6: two preconnects each requesting one stream, issued to the same Job,
are both completed by one single successful attempt: both completion
callbacks fire (two notified preconnects) while exactly one attempt was ever
launched; and once a multiplexed session exists, a later preconnect completes
synchronously without contributing further demand, so counts are not additive
across distinct callers. -/
theorem preconnect_coalescing :
    ((run [10] false
        [.preconnect 1, .preconnect 1, .maybeAttemptConnection,
         .attemptSucceeded 0 false]).notifiedPreconnects =
      [(0, OK), (1, OK)] ∧
     (run [10] false
        [.preconnect 1, .preconnect 1, .maybeAttemptConnection,
         .attemptSucceeded 0 false]).preconnects = [] ∧
     (run [10] false
        [.preconnect 1, .preconnect 1, .maybeAttemptConnection,
         .attemptSucceeded 0 false]).attemptHistory.length = 1) ∧
    ((run [10] true
        [.preconnect 2, .maybeAttemptConnection, .attemptSucceeded 0 true,
         .preconnect 3]).notifiedPreconnects =
      [(1, OK), (0, OK)] ∧
     (run [10] true
        [.preconnect 2, .maybeAttemptConnection, .attemptSucceeded 0 true,
         .preconnect 3]).attemptHistory.length = 1) := by
  decide

/-- C7: the pending demand of the Job is always
`len(requests) + sum(preconnect.remaining)`, and every admission decision is
computed from this count minus the number of in-flight attempts not flagged
slow: the per-kind pending counts subtract the non-slow in-flight attempts,
demand-is-zero is decided exactly on the total count, and the
blocked-by-covering-attempts decision is decided exactly on the total count
minus the non-slow in-flight attempts. -/
theorem pending_count_guarantee (s : JobState) :
    PendingRequestCount s =
      s.requests.length - (s.inFlightAttempts.length - slowAttemptCount s) ∧
    PendingPreconnectCount s =
      sumRemaining s.preconnects - (s.inFlightAttempts.length - slowAttemptCount s) ∧
    (CanAttemptConnection s = .kNoPendingRequest ↔
      s.requests.length + sumRemaining s.preconnects = 0) ∧
    (CanAttemptConnection s = .kBlockedStreamAttempt ↔
      (0 < s.requests.length + sumRemaining s.preconnects ∧
        s.requests.length + sumRemaining s.preconnects - nonSlowAttemptCount s = 0)) := by
  refine ⟨rfl, rfl, ?_, ?_⟩
  · unfold CanAttemptConnection
    by_cases h0 : s.requests.length + sumRemaining s.preconnects = 0
    · simp [h0]
    · rw [if_neg h0]
      by_cases h1 : s.requests.length + sumRemaining s.preconnects ≤ nonSlowAttemptCount s
      · rw [if_pos h1]
        simp [h0]
      · rw [if_neg h1]
        constructor
        · intro hEq
          repeat' split at hEq
          all_goals simp at hEq
        · intro hc
          exact absurd hc h0
  · unfold CanAttemptConnection
    by_cases h0 : s.requests.length + sumRemaining s.preconnects = 0
    · rw [if_pos h0]
      constructor
      · intro hEq
        simp at hEq
      · intro hc
        omega
    · rw [if_neg h0]
      by_cases h1 : s.requests.length + sumRemaining s.preconnects ≤ nonSlowAttemptCount s
      · rw [if_pos h1]
        exact iff_of_true rfl ⟨by omega, by omega⟩
      · rw [if_neg h1]
        constructor
        · intro hEq
          repeat' split at hEq
          all_goals simp at hEq
        · intro hc
          exact absurd hc.2 (by omega)

end HttpStreamPool.Job

namespace HttpStreamPool.Job

/-- C8: when the destination is known to support the alternate multiplexed
protocol and at least one attempt is in flight, no additional TCP attempt
starts before the throttle delay elapses — regardless of how many requests
are queued — and the one-shot timer (or an earlier alternate-protocol
failure) releases the throttle, after which attempts resume. -/
theorem spdy_throttle_blocks_second_attempt (s : JobState)
    (hspdy : s.supportsSpdy = true)
    (hdelay : s.spdyThrottleDelayPassed = false)
    (hin : s.inFlightAttempts.isEmpty = false)
    (hsess : s.spdySession = false)
    (hquic : isAltProtocolFailure s.quicTaskResult = false) :
    ShouldThrottleAttemptForSpdy s = true ∧
    (applyEvent s .maybeAttemptConnection).attemptHistory = s.attemptHistory ∧
    (applyEvent s .maybeAttemptConnection).inFlightAttempts = s.inFlightAttempts ∧
    ShouldThrottleAttemptForSpdy { s with spdyThrottleDelayPassed := true } = false ∧
    (∀ rv : Int, rv ≠ OK →
      ShouldThrottleAttemptForSpdy { s with quicTaskResult := some rv } = false) ∧
    (∀ ep : Nat, s.isFailing = false → s.isCancelingRequests = false →
      CanAttemptConnection { s with spdyThrottleDelayPassed := true } = .kAttempt →
      GetIPEndPointToAttempt { s with spdyThrottleDelayPassed := true } = some ep →
      (applyEvent s .spdyThrottleDelayPassed).attemptHistory = ep :: s.attemptHistory) := by
  have hthr : ShouldThrottleAttemptForSpdy s = true := by
    simp [ShouldThrottleAttemptForSpdy, hspdy, hdelay, hin, hsess, hquic]
  have hca : CanAttemptConnection s ≠ CanAttemptResult.kAttempt := by
    unfold CanAttemptConnection
    by_cases h0 : s.requests.length + sumRemaining s.preconnects = 0
    · rw [if_pos h0]
      simp
    · rw [if_neg h0]
      by_cases h1 : s.requests.length + sumRemaining s.preconnects ≤ nonSlowAttemptCount s
      · rw [if_pos h1]
        simp
      · rw [if_neg h1, if_pos hthr]
        simp
  have hnoop : MaybeAttemptConnection s = s := by
    unfold MaybeAttemptConnection
    split
    · rfl
    · split
      · next heq => exact absurd heq hca
      · rfl
  refine ⟨hthr, ?_, ?_, ?_, ?_, ?_⟩
  · show (MaybeAttemptConnection s).attemptHistory = s.attemptHistory
    rw [hnoop]
  · show (MaybeAttemptConnection s).inFlightAttempts = s.inFlightAttempts
    rw [hnoop]
  · simp [ShouldThrottleAttemptForSpdy]
  · intro rv hrv
    simp [ShouldThrottleAttemptForSpdy, isAltProtocolFailure, hrv]
  · intro ep hfail hcancel hcan hep
    have hstep : applyEvent s Event.spdyThrottleDelayPassed =
        launchAttempt { s with spdyThrottleDelayPassed := true } ep := by
      show MaybeAttemptConnection { s with spdyThrottleDelayPassed := true } = _
      unfold MaybeAttemptConnection
      split
      · next hcond => simp [hfail, hcancel] at hcond
      · rw [hcan, hep]
    rw [hstep]
    rfl

/-- Witness for C8: destination known to support HTTP/2, five queued requests
and one attempt in flight; no second attempt starts while throttled, and the
attempt resumes (at endpoint 10) once the one-shot timer fires. -/
theorem spdy_throttle_blocks_second_attempt_witness :
    ((run [10] true
        [.requestStream 1, .requestStream 1, .requestStream 1, .requestStream 1,
         .requestStream 1, .maybeAttemptConnection]).requests.length = 5) ∧
    (applyEvent (run [10] true
        [.requestStream 1, .requestStream 1, .requestStream 1, .requestStream 1,
         .requestStream 1, .maybeAttemptConnection])
        (.maybeAttemptConnection)).attemptHistory =
      (run [10] true
        [.requestStream 1, .requestStream 1, .requestStream 1, .requestStream 1,
         .requestStream 1, .maybeAttemptConnection]).attemptHistory ∧
    (applyEvent (run [10] true
        [.requestStream 1, .requestStream 1, .requestStream 1, .requestStream 1,
         .requestStream 1, .maybeAttemptConnection])
        (.spdyThrottleDelayPassed)).attemptHistory =
      10 :: (run [10] true
        [.requestStream 1, .requestStream 1, .requestStream 1, .requestStream 1,
         .requestStream 1, .maybeAttemptConnection]).attemptHistory := by
  have h := spdy_throttle_blocks_second_attempt
    (run [10] true
      [.requestStream 1, .requestStream 1, .requestStream 1, .requestStream 1,
       .requestStream 1, .maybeAttemptConnection])
    (by decide) (by decide) (by decide) (by decide) (by decide)
  exact ⟨by decide, h.2.1, h.2.2.2.2.2 10 (by decide) (by decide) (by decide) (by decide)⟩

end HttpStreamPool.Job

namespace HttpStreamPool.Job

theorem find_drop_head (l : List Nat) (skip : List Nat) (a : Nat) (ha : a ∉ l) :
    l.find? (fun ep => !((a :: skip).contains ep)) =
      l.find? (fun ep => !(skip.contains ep)) := by
  induction l with
  | nil => rfl
  | cons b bs ih =>
    have hba : (b == a) = false := by
      have : b ≠ a := fun hb => ha (by rw [← hb]; exact List.mem_cons_self b bs)
      simp [this]
    have hpred : (!((a :: skip).contains b)) = (!(skip.contains b)) := by
      rw [List.contains_cons, hba]
      simp
    have ha' : a ∉ bs := fun hm => ha (List.mem_cons_of_mem _ hm)
    by_cases hk : (!(skip.contains b)) = true
    · have h1 : List.find? (fun ep => !((a :: skip).contains ep)) (b :: bs) = some b :=
        List.find?_cons_of_pos _ (by rw [hpred]; exact hk)
      have h2 : List.find? (fun ep => !(skip.contains ep)) (b :: bs) = some b :=
        List.find?_cons_of_pos _ hk
      rw [h1, h2]
    · have h1 : List.find? (fun ep => !((a :: skip).contains ep)) (b :: bs) =
          List.find? (fun ep => !((a :: skip).contains ep)) bs :=
        List.find?_cons_of_neg _ (by rw [hpred]; exact hk)
      have h2 : List.find? (fun ep => !(skip.contains ep)) (b :: bs) =
          List.find? (fun ep => !(skip.contains ep)) bs :=
        List.find?_cons_of_neg _ hk
      rw [h1, h2]
      exact ih ha'

theorem find_skip (l : List Nat) (hnd : l.Nodup) :
    ∀ k, l.find? (fun ep => !((l.take k).contains ep)) = l[k]? := by
  induction l with
  | nil => intro k; rfl
  | cons a l' ih =>
    rw [List.nodup_cons] at hnd
    intro k
    cases k with
    | zero =>
      rw [List.take_zero]
      have h1 : List.find? (fun ep => !(List.contains [] ep)) (a :: l') = some a :=
        List.find?_cons_of_pos _ (by simp)
      rw [h1, List.getElem?_cons_zero]
    | succ k =>
      have htake : (a :: l').take (k + 1) = a :: l'.take k := rfl
      rw [htake]
      have h1 : List.find? (fun ep => !((a :: l'.take k).contains ep)) (a :: l') =
          List.find? (fun ep => !((a :: l'.take k).contains ep)) l' :=
        List.find?_cons_of_neg _ (by simp [List.contains_cons])
      rw [h1, find_drop_head l' (l'.take k) a hnd.1, ih hnd.2 k,
        List.getElem?_cons_succ]

theorem getD_eq_getElem (l : List Nat) (k : Nat) (hk : k < l.length) :
    l.getD k 0 = l[k] := by
  rw [List.getD_eq_getElem?_getD, List.getElem?_eq_getElem hk]
  rfl

theorem getD_not_mem_take : ∀ (l : List Nat) (k : Nat), l.Nodup → k < l.length →
    l.getD k 0 ∉ l.take k
  | l, 0, _, _ => by simp
  | [], k + 1, _, hk => by simp at hk
  | a :: l', k + 1, hnd, hk => by
    rw [List.nodup_cons] at hnd
    intro hmem
    have hk' : k < l'.length := by simpa using hk
    have hgd : (a :: l').getD (k + 1) 0 = l'.getD k 0 := rfl
    rcases List.mem_cons.mp hmem with heq | hmem'
    · have hmem2 : l'.getD k 0 ∈ l' := by
        rw [getD_eq_getElem l' k hk']
        exact List.getElem_mem hk'
      rw [hgd] at heq
      rw [heq] at hmem2
      exact hnd.1 hmem2
    · exact getD_not_mem_take l' k hnd.2 hk' (by rw [hgd] at hmem'; exact hmem')

theorem take_append_getD (l : List Nat) (k : Nat) (hk : k < l.length) :
    l.take k ++ [l.getD k 0] = l.take (k + 1) := by
  rw [List.take_succ, List.getElem?_eq_getElem hk, getD_eq_getElem l k hk]
  rfl

theorem getIP_no_slow (s : JobState) (hslow : s.slowIpEndpoints = []) :
    GetIPEndPointToAttempt s =
      s.serviceEndpoints.find? (fun ep => !(s.failedIpEndpoints.contains ep)) := by
  unfold GetIPEndPointToAttempt
  rw [hslow]
  have hfun : (fun ep => !s.failedIpEndpoints.contains ep &&
      !(List.contains [] ep)) = (fun ep => !(s.failedIpEndpoints.contains ep)) := by
    funext ep
    simp
  rw [hfun]
  cases h : s.serviceEndpoints.find? (fun ep => !(s.failedIpEndpoints.contains ep)) with
  | none => rfl
  | some ep => rfl

end HttpStreamPool.Job

namespace HttpStreamPool.Job

theorem exhaustState_find (eps : List Nat) (k : Nat) :
    (exhaustState eps k).inFlightAttempts.find? (fun x => x.aid = k) =
      some ⟨k, eps.getD k 0, false⟩ := by
  have h : List.find? (fun x : InFlightAttempt => x.aid = k)
      [⟨k, eps.getD k 0, false⟩] = some ⟨k, eps.getD k 0, false⟩ :=
    List.find?_cons_of_pos _ (by simp)
  exact h

theorem exhaust_step_common (eps : List Nat) (hnd : eps.Nodup) (k : Nat)
    (hk : k < eps.length) :
    applyEvent (exhaustState eps k)
        (.attemptFailed k ERR_CONNECTION_REFUSED false false) =
      MaybeAttemptConnection (exhaustMid eps k) := by
  have hins : insertIfAbsent (eps.getD k 0) (eps.take k) = eps.take (k + 1) := by
    unfold insertIfAbsent
    rw [if_neg (getD_not_mem_take eps k hnd hk)]
    exact take_append_getD eps k hk
  show handleAttemptFailed (exhaustState eps k) k ERR_CONNECTION_REFUSED false false = _
  rw [handleAttemptFailed_eq_some (exhaustState_find eps k)]
  split
  · next hc => exact absurd hc (by simp [exhaustState])
  · have hgoal : MaybeAttemptConnection (ProcessPreconnectsAfterAttemptComplete
        { removeAttempt (exhaustState eps k) k with
          failedIpEndpoints := insertIfAbsent
            (InFlightAttempt.mk k (eps.getD k 0) false).ipEndpoint
            (exhaustState eps k).failedIpEndpoints,
          errorToNotify := ERR_CONNECTION_REFUSED } ERR_CONNECTION_REFUSED) =
        MaybeAttemptConnection (exhaustMid eps k) := by
      congr 1
      simp [ProcessPreconnectsAfterAttemptComplete, removeAttempt, exhaustState,
        exhaustMid, hins]
      rw [← List.getD_eq_getElem?_getD]
      exact hins
    exact hgoal

theorem exhaustMid_can (eps : List Nat) (k : Nat) :
    CanAttemptConnection (exhaustMid eps k) = .kAttempt := by
  simp [CanAttemptConnection, exhaustMid, sumRemaining, nonSlowAttemptCount,
    slowAttemptCount, ShouldThrottleAttemptForSpdy]

theorem exhaustMid_getIP (eps : List Nat) (hnd : eps.Nodup) (k : Nat) :
    GetIPEndPointToAttempt (exhaustMid eps k) = eps[k + 1]? := by
  rw [getIP_no_slow _ rfl]
  show eps.find? (fun ep => !((eps.take (k + 1)).contains ep)) = _
  exact find_skip eps hnd (k + 1)

theorem exhaust_step_mid (eps : List Nat) (hnd : eps.Nodup) (k : Nat)
    (hk : k + 1 < eps.length) :
    applyEvent (exhaustState eps k)
        (.attemptFailed k ERR_CONNECTION_REFUSED false false) =
      exhaustState eps (k + 1) := by
  rw [exhaust_step_common eps hnd k (by omega)]
  unfold MaybeAttemptConnection
  split
  · next hc => exact absurd hc (by simp [exhaustMid])
  · rw [exhaustMid_can, exhaustMid_getIP eps hnd k, List.getElem?_eq_getElem hk]
    show launchAttempt (exhaustMid eps k) eps[k + 1] = exhaustState eps (k + 1)
    have hgd : eps.getD (k + 1) 0 = eps[k + 1] := getD_eq_getElem eps (k + 1) hk
    have hhist : (eps.take (k + 1 + 1)).reverse =
        eps[k + 1] :: (eps.take (k + 1)).reverse := by
      rw [← take_append_getD eps (k + 1) hk, List.reverse_append, hgd]
      rfl
    simp only [launchAttempt, exhaustMid, exhaustState]
    congr 1
    all_goals first
      | rfl
      | (rw [hgd])
      | (exact hhist.symm)

theorem exhaust_step_last (eps : List Nat) (hnd : eps.Nodup) (k : Nat)
    (hk : k + 1 = eps.length) :
    applyEvent (exhaustState eps k)
        (.attemptFailed k ERR_CONNECTION_REFUSED false false) =
      exhaustFinal eps := by
  rw [exhaust_step_common eps hnd k (by omega)]
  unfold MaybeAttemptConnection
  split
  · next hc => exact absurd hc (by simp [exhaustMid])
  · rw [exhaustMid_can, exhaustMid_getIP eps hnd k,
      List.getElem?_eq_none (by omega)]
    show NotifyFailure (exhaustMid eps k) = exhaustFinal eps
    simp [NotifyFailure, notifyAllRequests, NotifyPreconnectsComplete,
      DetermineFailureKind, exhaustMid, exhaustFinal, hk, List.take_length]

end HttpStreamPool.Job

namespace HttpStreamPool.Job

theorem exhaust_prologue (eps : List Nat) (hnd : eps.Nodup) (hlen : 0 < eps.length) :
    runFrom (initState eps false) [.requestStream 1, .maybeAttemptConnection] =
      exhaustState eps 0 := by
  have hgd : eps.getD 0 0 = eps[0] := getD_eq_getElem eps 0 hlen
  rw [runFrom_cons, runFrom_cons, runFrom_nil]
  have h1 : applyEvent (initState eps false) (.requestStream 1) =
      { initState eps false with
        requests := [⟨0, 1, 0⟩], nextRequestId := 1, nextArrival := 1 } := by
    show handleRequestStream (initState eps false) 1 = _
    unfold handleRequestStream
    rw [if_neg (by simp [initState])]
    rfl
  rw [h1]
  have hcan : CanAttemptConnection
      { initState eps false with
        requests := [⟨0, 1, 0⟩], nextRequestId := 1, nextArrival := 1 } = .kAttempt := by
    simp [CanAttemptConnection, initState, sumRemaining, nonSlowAttemptCount,
      slowAttemptCount, ShouldThrottleAttemptForSpdy]
  have hip : GetIPEndPointToAttempt
      { initState eps false with
        requests := [⟨0, 1, 0⟩], nextRequestId := 1, nextArrival := 1 } = eps[0]? := by
    rw [getIP_no_slow _ rfl]
    show eps.find? (fun ep => !((eps.take 0).contains ep)) = _
    exact find_skip eps hnd 0
  show MaybeAttemptConnection _ = _
  unfold MaybeAttemptConnection
  split
  · next hc => exact absurd hc (by simp [initState])
  · rw [hcan, hip, List.getElem?_eq_getElem hlen]
    show launchAttempt
      { initState eps false with
        requests := [⟨0, 1, 0⟩], nextRequestId := 1, nextArrival := 1 } eps[0] =
      exhaustState eps 0
    have hhist : (eps.take (0 + 1)).reverse = eps[0] :: (eps.take 0).reverse := by
      rw [← take_append_getD eps 0 hlen, List.reverse_append, hgd]
      rfl
    simp only [launchAttempt, initState, exhaustState]
    congr 1
    all_goals first
      | rfl
      | (rw [hgd])
      | (exact hhist.symm)

theorem exhaust_run (eps : List Nat) (hnd : eps.Nodup) :
    ∀ n k, k + n + 1 = eps.length →
      runFrom (exhaustState eps k) (failEvents k (n + 1)) = exhaustFinal eps := by
  intro n
  induction n with
  | zero =>
    intro k hk
    rw [show failEvents k 1 =
      [.attemptFailed k ERR_CONNECTION_REFUSED false false] from rfl]
    rw [runFrom_cons, runFrom_nil]
    exact exhaust_step_last eps hnd k (by omega)
  | succ n ih =>
    intro k hk
    rw [show failEvents k (n + 2) =
      .attemptFailed k ERR_CONNECTION_REFUSED false false ::
        failEvents (k + 1) (n + 1) from rfl]
    rw [runFrom_cons, exhaust_step_mid eps hnd k (by omega)]
    exact ih (k + 1) (by omega)

end HttpStreamPool.Job

namespace HttpStreamPool.Job

theorem subset_insertIfAbsent (x : Nat) (l : List Nat) : l ⊆ insertIfAbsent x l := by
  unfold insertIfAbsent
  split
  · exact List.Subset.refl _
  · exact List.subset_append_left _ _

theorem endpoints_MaybeAttempt (t : JobState) :
    (MaybeAttemptConnection t).failedIpEndpoints = t.failedIpEndpoints ∧
    (MaybeAttemptConnection t).slowIpEndpoints = t.slowIpEndpoints := by
  unfold MaybeAttemptConnection
  repeat' split
  all_goals exact ⟨rfl, rfl⟩

theorem endpoints_CreateText (t : JobState) :
    (CreateTextBasedStreamAndNotify t).failedIpEndpoints = t.failedIpEndpoints ∧
    (CreateTextBasedStreamAndNotify t).slowIpEndpoints = t.slowIpEndpoints := by
  unfold CreateTextBasedStreamAndNotify
  refine ⟨?_, ?_⟩ <;> (split <;> rfl)

theorem endpoints_mono_applyEvent (s : JobState) (e : Event) :
    s.failedIpEndpoints ⊆ (applyEvent s e).failedIpEndpoints ∧
    s.slowIpEndpoints ⊆ (applyEvent s e).slowIpEndpoints := by
  cases e with
  | requestStream p =>
    show s.failedIpEndpoints ⊆ (handleRequestStream s p).failedIpEndpoints ∧
      s.slowIpEndpoints ⊆ (handleRequestStream s p).slowIpEndpoints
    unfold handleRequestStream
    split <;> exact ⟨List.Subset.refl _, List.Subset.refl _⟩
  | preconnect n =>
    show s.failedIpEndpoints ⊆ (handlePreconnect s n).failedIpEndpoints ∧
      s.slowIpEndpoints ⊆ (handlePreconnect s n).slowIpEndpoints
    unfold handlePreconnect
    repeat' split
    all_goals exact ⟨List.Subset.refl _, List.Subset.refl _⟩
  | maybeAttemptConnection =>
    show s.failedIpEndpoints ⊆ (MaybeAttemptConnection s).failedIpEndpoints ∧
      s.slowIpEndpoints ⊆ (MaybeAttemptConnection s).slowIpEndpoints
    rw [(endpoints_MaybeAttempt s).1, (endpoints_MaybeAttempt s).2]
    exact ⟨List.Subset.refl _, List.Subset.refl _⟩
  | attemptSucceeded aid nsp =>
    show s.failedIpEndpoints ⊆ (handleAttemptSucceeded s aid nsp).failedIpEndpoints ∧
      s.slowIpEndpoints ⊆ (handleAttemptSucceeded s aid nsp).slowIpEndpoints
    cases hf : s.inFlightAttempts.find? (fun a => a.aid = aid) with
    | none =>
      rw [handleAttemptSucceeded_eq_none hf]
      exact ⟨List.Subset.refl _, List.Subset.refl _⟩
    | some a =>
      rw [handleAttemptSucceeded_eq_some hf]
      split
      · exact ⟨List.Subset.refl _, List.Subset.refl _⟩
      · rw [(endpoints_CreateText _).1, (endpoints_CreateText _).2]
        exact ⟨List.Subset.refl _, List.Subset.refl _⟩
  | attemptFailed aid error isCert isClientAuth =>
    show s.failedIpEndpoints ⊆
        (handleAttemptFailed s aid error isCert isClientAuth).failedIpEndpoints ∧
      s.slowIpEndpoints ⊆
        (handleAttemptFailed s aid error isCert isClientAuth).slowIpEndpoints
    cases hf : s.inFlightAttempts.find? (fun a => a.aid = aid) with
    | none =>
      rw [handleAttemptFailed_eq_none hf]
      exact ⟨List.Subset.refl _, List.Subset.refl _⟩
    | some a =>
      rw [handleAttemptFailed_eq_some hf]
      split
      · exact ⟨subset_insertIfAbsent _ _, List.Subset.refl _⟩
      · split
        · exact ⟨subset_insertIfAbsent _ _, List.Subset.refl _⟩
        · split
          · exact ⟨subset_insertIfAbsent _ _, List.Subset.refl _⟩
          · rw [(endpoints_MaybeAttempt _).1, (endpoints_MaybeAttempt _).2]
            exact ⟨subset_insertIfAbsent _ _, List.Subset.refl _⟩
  | attemptSlow aid =>
    show s.failedIpEndpoints ⊆ (handleAttemptSlow s aid).failedIpEndpoints ∧
      s.slowIpEndpoints ⊆ (handleAttemptSlow s aid).slowIpEndpoints
    cases hf : s.inFlightAttempts.find? (fun a => a.aid = aid) with
    | none =>
      rw [handleAttemptSlow_eq_none hf]
      exact ⟨List.Subset.refl _, List.Subset.refl _⟩
    | some a =>
      rw [handleAttemptSlow_eq_some hf]
      exact ⟨List.Subset.refl _, subset_insertIfAbsent _ _⟩
  | spdyThrottleDelayPassed =>
    show s.failedIpEndpoints ⊆
        (MaybeAttemptConnection { s with spdyThrottleDelayPassed := true }).failedIpEndpoints ∧
      s.slowIpEndpoints ⊆
        (MaybeAttemptConnection { s with spdyThrottleDelayPassed := true }).slowIpEndpoints
    rw [(endpoints_MaybeAttempt _).1, (endpoints_MaybeAttempt _).2]
    exact ⟨List.Subset.refl _, List.Subset.refl _⟩
  | quicTaskComplete rv =>
    show s.failedIpEndpoints ⊆
        (MaybeAttemptConnection { s with quicTaskResult := some rv }).failedIpEndpoints ∧
      s.slowIpEndpoints ⊆
        (MaybeAttemptConnection { s with quicTaskResult := some rv }).slowIpEndpoints
    rw [(endpoints_MaybeAttempt _).1, (endpoints_MaybeAttempt _).2]
    exact ⟨List.Subset.refl _, List.Subset.refl _⟩
  | cancelRequests error =>
    exact ⟨List.Subset.refl _, List.Subset.refl _⟩

theorem endpoints_mono_runFrom (s : JobState) (events : List Event) :
    s.failedIpEndpoints ⊆ (runFrom s events).failedIpEndpoints ∧
    s.slowIpEndpoints ⊆ (runFrom s events).slowIpEndpoints := by
  induction events generalizing s with
  | nil => exact ⟨List.Subset.refl _, List.Subset.refl _⟩
  | cons e es ih =>
    refine ⟨List.Subset.trans ?_ (ih (applyEvent s e)).1,
      List.Subset.trans ?_ (ih (applyEvent s e)).2⟩
    · exact (endpoints_mono_applyEvent s e).1
    · exact (endpoints_mono_applyEvent s e).2

theorem getIP_not_failed (s : JobState) (ep : Nat)
    (h : GetIPEndPointToAttempt s = some ep) : ep ∉ s.failedIpEndpoints := by
  unfold GetIPEndPointToAttempt at h
  cases h1 : s.serviceEndpoints.find?
      (fun e => !s.failedIpEndpoints.contains e && !s.slowIpEndpoints.contains e) with
  | some e0 =>
    rw [h1] at h
    have he : e0 = ep := by
      have : (some e0 : Option Nat) = some ep := h
      exact Option.some.injEq e0 ep ▸ this
    have hp := List.find?_some h1
    rw [he] at hp
    simp only [Bool.and_eq_true, Bool.not_eq_true'] at hp
    intro hmem
    have : s.failedIpEndpoints.contains ep = true := by simp [hmem]
    rw [this] at hp
    exact Bool.false_ne_true hp.1.symm
  | none =>
    rw [h1] at h
    have h' : s.serviceEndpoints.find?
        (fun e => !s.failedIpEndpoints.contains e) = some ep := h
    have hp := List.find?_some h'
    simp only [Bool.not_eq_true'] at hp
    intro hmem
    have : s.failedIpEndpoints.contains ep = true := by simp [hmem]
    rw [this] at hp
    exact Bool.false_ne_true hp.symm

end HttpStreamPool.Job

namespace HttpStreamPool.Job

/-- C5: `failed_ip_endpoints` and `slow_ip_endpoints` only grow over the
Job's lifetime (no element is ever removed across any event sequence), an
endpoint already in `failed_ip_endpoints` is never selected for another
attempt, and given N candidate endpoints that all fail, the Job attempts each
endpoint exactly once before transitioning to the failing state, at which
point `failed_ip_endpoints` has size N. -/
theorem failed_endpoints_monotone_and_exhaustion :
    (∀ (s : JobState) (events : List Event),
      s.failedIpEndpoints ⊆ (runFrom s events).failedIpEndpoints ∧
      s.slowIpEndpoints ⊆ (runFrom s events).slowIpEndpoints) ∧
    (∀ (s : JobState) (ep : Nat),
      GetIPEndPointToAttempt s = some ep → ep ∉ s.failedIpEndpoints) ∧
    (∀ eps : List Nat, eps.Nodup → 0 < eps.length →
      (run eps false (exhaustionEvents eps)).isFailing = true ∧
      (run eps false (exhaustionEvents eps)).failedIpEndpoints = eps ∧
      (run eps false (exhaustionEvents eps)).failedIpEndpoints.length = eps.length ∧
      (run eps false (exhaustionEvents eps)).attemptHistory = eps.reverse ∧
      (run eps false (exhaustionEvents eps)).attemptHistory.Nodup) := by
  refine ⟨endpoints_mono_runFrom, getIP_not_failed, ?_⟩
  intro eps hnd hlen
  have hrun : run eps false (exhaustionEvents eps) = exhaustFinal eps := by
    unfold run exhaustionEvents
    rw [runFrom_cons, runFrom_cons]
    have hpro := exhaust_prologue eps hnd hlen
    rw [runFrom_cons, runFrom_cons, runFrom_nil] at hpro
    rw [hpro]
    obtain ⟨m, hm⟩ : ∃ m, eps.length = m + 1 := ⟨eps.length - 1, by omega⟩
    rw [hm]
    exact exhaust_run eps hnd m 0 (by omega)
  rw [hrun]
  refine ⟨rfl, rfl, rfl, rfl, ?_⟩
  show eps.reverse.Nodup
  rw [List.nodup_reverse]
  exact hnd

/-- Witness for C5 at the two-endpoint instance: both candidates fail, the
Job ends failing with both endpoints recorded, each attempted once. -/
theorem failed_endpoints_monotone_and_exhaustion_witness :
    (([5, 7] : List Nat).Nodup ∧ 0 < ([5, 7] : List Nat).length) ∧
    (run [5, 7] false (exhaustionEvents [5, 7])).isFailing = true ∧
    (run [5, 7] false (exhaustionEvents [5, 7])).failedIpEndpoints = [5, 7] ∧
    (run [5, 7] false (exhaustionEvents [5, 7])).attemptHistory = [7, 5] := by
  have h := failed_endpoints_monotone_and_exhaustion.2.2 [5, 7] (by decide) (by decide)
  exact ⟨⟨by decide, by decide⟩, h.1, h.2.1, h.2.2.2.1⟩

end HttpStreamPool.Job
